import Mathlib

/-!
Verification development for the comacode remote-terminal system.

Shallow embedding of the host-side connection runtime:
 - the postcard wire serializer for `NetworkMessage` (crates/core/src/types/*,
   postcard varint/zigzag format as used by `MessageCodec`),
 - the framing codec (crates/core/src/protocol/codec.rs),
 - the server-side frame splitter (crates/hostagent/src/quic_server.rs,
   `try_decode_message`) and per-stream connection state machine,
 - the token store (crates/hostagent/src/auth.rs),
 - the rate limiter and ban set (crates/hostagent/src/ratelimit.rs),
 - `AuthToken::from_hex` (crates/core/src/auth.rs) including Rust string
   slicing semantics (char-boundary panics),
 - the PTY-to-wire pumps (crates/core/src/transport/stream.rs).

Bytes are modelled as `Nat` (well-formedness predicates carry the `< 256`
bound), Rust strings as their UTF-8 byte lists, machine integers as `Nat`
with explicit width bounds, and time as `Nat` (seconds for the token store,
milliseconds for the pump timer).
-/

namespace Comacode

/-! ### Postcard primitive: LEB128 varint

postcard serializes u16/u32/u64/usize as little-endian base-128 varints
(7 payload bits per byte, high bit = continuation).  The deserializer
reads at most `varint_max` bytes for the target width: 3 for u16, 5 for
u32, 10 for u64/usize. -/

def serVarint (n : Nat) : List Nat :=
  if n < 128 then [n] else (n % 128 + 128) :: serVarint (n / 128)
termination_by n
decreasing_by
  exact Nat.div_lt_self (by omega) (by omega)

def deserVarint : Nat → List Nat → Option (Nat × List Nat)
  | 0, _ => none
  | _ + 1, [] => none
  | fuel + 1, b :: rest =>
    if b < 128 then some (b, rest)
    else
      match deserVarint fuel rest with
      | some (n, r) => some (n * 128 + (b - 128), r)
      | none => none

theorem serVarint_ne_nil (n : Nat) : serVarint n ≠ [] := by
  rw [serVarint]
  split <;> simp

theorem serVarint_length_le (k : Nat) : ∀ n : Nat, 0 < k → n < 2 ^ (7 * k) →
    (serVarint n).length ≤ k := by
  induction k with
  | zero => omega
  | succ k ih =>
    intro n _ hn
    rw [serVarint]
    split
    · simp
    · rename_i hge
      have hk : 0 < k := by
        by_contra h
        have : k = 0 := by omega
        subst this
        simp at hn
        omega
      have hdiv : n / 128 < 2 ^ (7 * k) := by
        have h1 : n < 2 ^ (7 * k) * 128 := by
          have : (7 * (k + 1)) = 7 * k + 7 := by ring
          rw [this, pow_add] at hn
          simpa using hn
        omega
      have := ih (n / 128) hk hdiv
      simpa using this

theorem deserVarint_serVarint (fuel : Nat) : ∀ (n : Nat) (rest : List Nat),
    (serVarint n).length ≤ fuel →
    deserVarint fuel (serVarint n ++ rest) = some (n, rest) := by
  induction fuel with
  | zero =>
    intro n rest h
    have := serVarint_ne_nil n
    cases hs : serVarint n with
    | nil => exact absurd hs this
    | cons a t => rw [hs] at h; simp at h
  | succ fuel ih =>
    intro n rest h
    rw [serVarint]
    rw [serVarint] at h
    split
    · rename_i hlt
      simp [deserVarint, hlt]
    · rename_i hge
      simp only [List.cons_append, deserVarint]
      have hb : ¬ (n % 128 + 128 < 128) := by omega
      rw [if_neg hb]
      rw [if_neg hge] at h
      have hlen : (serVarint (n / 128)).length ≤ fuel := by
        simp at h; omega
      simp only [List.append_eq]
      rw [ih (n / 128) rest hlen]
      simp
      omega

theorem deserVarint3_ser (n : Nat) (rest : List Nat) (h : n < 2 ^ 16) :
    deserVarint 3 (serVarint n ++ rest) = some (n, rest) :=
  deserVarint_serVarint 3 n rest
    (serVarint_length_le 3 n (by omega) (by calc n < 2 ^ 16 := h
                                              _ ≤ 2 ^ (7 * 3) := by norm_num))

theorem deserVarint5_ser (n : Nat) (rest : List Nat) (h : n < 2 ^ 32) :
    deserVarint 5 (serVarint n ++ rest) = some (n, rest) :=
  deserVarint_serVarint 5 n rest
    (serVarint_length_le 5 n (by omega) (by calc n < 2 ^ 32 := h
                                              _ ≤ 2 ^ (7 * 5) := by norm_num))

theorem deserVarint10_ser (n : Nat) (rest : List Nat) (h : n < 2 ^ 64) :
    deserVarint 10 (serVarint n ++ rest) = some (n, rest) :=
  deserVarint_serVarint 10 n rest
    (serVarint_length_le 10 n (by omega) (by calc n < 2 ^ 64 := h
                                               _ ≤ 2 ^ (7 * 10) := by norm_num))

/-! ### Postcard composite encodings

Byte vectors and strings carry a varint (usize, max 10 bytes) length
prefix; strings are additionally checked for UTF-8 validity by the
deserializer.  Options are a 0/1 tag byte, bools a 0/1 byte, sequences a
varint count followed by the elements, i32 a zigzag varint, and the
fixed `[u8; 32]` of `AuthToken` 32 raw bytes with no prefix. -/

def serBytes (l : List Nat) : List Nat := serVarint l.length ++ l

def deserBytes (l : List Nat) : Option (List Nat × List Nat) :=
  match deserVarint 10 l with
  | some (n, r) => if n ≤ r.length then some (r.take n, r.drop n) else none
  | none => none

/-- UTF-8 validity of a byte list, as checked by `core::str::from_utf8`
(which postcard uses when deserializing a `String`): ASCII, or 2-, 3-,
4-byte sequences with the standard range restrictions (no overlong forms,
no surrogates, max U+10FFFF). -/
def validUtf8 : List Nat → Bool
  | [] => true
  | b :: rest =>
    if b < 0x80 then validUtf8 rest
    else if 0xC2 ≤ b ∧ b ≤ 0xDF then
      match rest with
      | c1 :: r => (0x80 ≤ c1 && c1 ≤ 0xBF) && validUtf8 r
      | [] => false
    else if b = 0xE0 then
      match rest with
      | c1 :: c2 :: r =>
        (0xA0 ≤ c1 && c1 ≤ 0xBF) && (0x80 ≤ c2 && c2 ≤ 0xBF) && validUtf8 r
      | _ => false
    else if (0xE1 ≤ b ∧ b ≤ 0xEC) ∨ b = 0xEE ∨ b = 0xEF then
      match rest with
      | c1 :: c2 :: r =>
        (0x80 ≤ c1 && c1 ≤ 0xBF) && (0x80 ≤ c2 && c2 ≤ 0xBF) && validUtf8 r
      | _ => false
    else if b = 0xED then
      match rest with
      | c1 :: c2 :: r =>
        (0x80 ≤ c1 && c1 ≤ 0x9F) && (0x80 ≤ c2 && c2 ≤ 0xBF) && validUtf8 r
      | _ => false
    else if b = 0xF0 then
      match rest with
      | c1 :: c2 :: c3 :: r =>
        (0x90 ≤ c1 && c1 ≤ 0xBF) && (0x80 ≤ c2 && c2 ≤ 0xBF) &&
          (0x80 ≤ c3 && c3 ≤ 0xBF) && validUtf8 r
      | _ => false
    else if 0xF1 ≤ b ∧ b ≤ 0xF3 then
      match rest with
      | c1 :: c2 :: c3 :: r =>
        (0x80 ≤ c1 && c1 ≤ 0xBF) && (0x80 ≤ c2 && c2 ≤ 0xBF) &&
          (0x80 ≤ c3 && c3 ≤ 0xBF) && validUtf8 r
      | _ => false
    else if b = 0xF4 then
      match rest with
      | c1 :: c2 :: c3 :: r =>
        (0x80 ≤ c1 && c1 ≤ 0x8F) && (0x80 ≤ c2 && c2 ≤ 0xBF) &&
          (0x80 ≤ c3 && c3 ≤ 0xBF) && validUtf8 r
      | _ => false
    else false

def serString (l : List Nat) : List Nat := serBytes l

def deserString (l : List Nat) : Option (List Nat × List Nat) :=
  match deserBytes l with
  | some (s, r) => if validUtf8 s then some (s, r) else none
  | none => none

def serBool (b : Bool) : List Nat := [if b then 1 else 0]

def deserBool : List Nat → Option (Bool × List Nat)
  | 0 :: r => some (false, r)
  | 1 :: r => some (true, r)
  | _ => none

def serOption (f : α → List Nat) : Option α → List Nat
  | none => [0]
  | some a => 1 :: f a

def deserOption (f : List Nat → Option (α × List Nat)) :
    List Nat → Option (Option α × List Nat)
  | 0 :: r => some (none, r)
  | 1 :: r =>
    match f r with
    | some (a, r2) => some (some a, r2)
    | none => none
  | _ => none

def serEach (f : α → List Nat) : List α → List Nat
  | [] => []
  | a :: t => f a ++ serEach f t

def deserCount (f : List Nat → Option (α × List Nat)) :
    Nat → List Nat → Option (List α × List Nat)
  | 0, l => some ([], l)
  | n + 1, l =>
    match f l with
    | some (a, r) =>
      match deserCount f n r with
      | some (as, r2) => some (a :: as, r2)
      | none => none
    | none => none

def serSeq (f : α → List Nat) (l : List α) : List Nat :=
  serVarint l.length ++ serEach f l

def deserSeq (f : List Nat → Option (α × List Nat)) (l : List Nat) :
    Option (List α × List Nat) :=
  match deserVarint 10 l with
  | some (n, r) => deserCount f n r
  | none => none

/-- Zigzag transform used by postcard for signed integers. -/
def zigzag (z : Int) : Nat :=
  if 0 ≤ z then 2 * z.toNat else 2 * (-z).toNat - 1

def unzigzag (n : Nat) : Int :=
  if n % 2 = 0 then ((n / 2 : Nat) : Int) else -(((n / 2 : Nat) : Int) + 1)

def serI32 (z : Int) : List Nat := serVarint (zigzag z)

def deserI32 (l : List Nat) : Option (Int × List Nat) :=
  match deserVarint 5 l with
  | some (n, r) => some (unzigzag n, r)
  | none => none

/-- Serde fixed-size array `[u8; 32]`: the 32 bytes, no length prefix. -/
def deserArr32 (l : List Nat) : Option (List Nat × List Nat) :=
  if 32 ≤ l.length then some (l.take 32, l.drop 32) else none

/-! Roundtrip lemmas for the composite encodings. -/

theorem deserBytes_serBytes (l rest : List Nat) (h : l.length < 2 ^ 64) :
    deserBytes (serBytes l ++ rest) = some (l, rest) := by
  unfold serBytes deserBytes
  rw [List.append_assoc, deserVarint10_ser l.length (l ++ rest) h]
  simp

theorem deserString_serString (l rest : List Nat) (h : l.length < 2 ^ 64)
    (hu : validUtf8 l = true) :
    deserString (serString l ++ rest) = some (l, rest) := by
  unfold serString deserString
  rw [deserBytes_serBytes l rest h]
  simp [hu]

theorem deserBool_serBool (b : Bool) (rest : List Nat) :
    deserBool (serBool b ++ rest) = some (b, rest) := by
  cases b <;> simp [serBool, deserBool]

theorem deserOption_serOption (f : α → List Nat)
    (g : List Nat → Option (α × List Nat)) (o : Option α) (rest : List Nat)
    (hrt : ∀ a, o = some a → g (f a ++ rest) = some (a, rest)) :
    deserOption g (serOption f o ++ rest) = some (o, rest) := by
  cases o with
  | none => simp [serOption, deserOption]
  | some a => simp [serOption, deserOption, hrt a rfl]

theorem deserCount_serEach (f : α → List Nat)
    (g : List Nat → Option (α × List Nat)) (l : List α) (rest : List Nat)
    (hrt : ∀ a ∈ l, ∀ r : List Nat, g (f a ++ r) = some (a, r)) :
    deserCount g l.length (serEach f l ++ rest) = some (l, rest) := by
  induction l with
  | nil => simp [serEach, deserCount]
  | cons a t ih =>
    simp only [serEach, List.length_cons, deserCount, List.append_assoc]
    rw [hrt a (by simp)]
    simp only []
    rw [ih (fun x hx r => hrt x (by simp [hx]) r)]

theorem deserSeq_serSeq (f : α → List Nat)
    (g : List Nat → Option (α × List Nat)) (l : List α) (rest : List Nat)
    (hlen : l.length < 2 ^ 64)
    (hrt : ∀ a ∈ l, ∀ r : List Nat, g (f a ++ r) = some (a, r)) :
    deserSeq g (serSeq f l ++ rest) = some (l, rest) := by
  unfold serSeq deserSeq
  rw [List.append_assoc, deserVarint10_ser l.length _ hlen]
  exact deserCount_serEach f g l rest hrt

theorem deserI32_serI32 (z : Int) (rest : List Nat)
    (hlo : -(2 ^ 31) ≤ z) (hhi : z < 2 ^ 31) :
    deserI32 (serI32 z ++ rest) = some (z, rest) := by
  unfold serI32 deserI32
  have hz : zigzag z < 2 ^ 32 := by
    unfold zigzag
    split <;> omega
  rw [deserVarint5_ser (zigzag z) rest hz]
  have : unzigzag (zigzag z) = z := by
    unfold zigzag unzigzag
    split
    · rename_i hpos
      simp only [if_pos (by omega : 2 * z.toNat % 2 = 0)]
      omega
    · rename_i hneg
      have h1 : 1 ≤ (-z).toNat := by omega
      rw [if_neg (by omega : ¬ (2 * (-z).toNat - 1) % 2 = 0)]
      omega
  simp [this]

theorem deserArr32_append (l rest : List Nat) (h : l.length = 32) :
    deserArr32 (l ++ rest) = some (l, rest) := by
  unfold deserArr32
  rw [if_pos (by simp [h])]
  rw [List.take_append_of_le_length (by omega), List.drop_append_of_le_length (by omega)]
  simp [h]

/-! ### The wire types

`AuthToken` (crates/core/src/auth.rs), `TerminalCommand`
(crates/core/src/types/command.rs), `TerminalEvent`
(crates/core/src/types/event.rs), `DirEntry`, `FileEventType` and
`NetworkMessage` (crates/core/src/types/message.rs, in declaration
order — postcard uses the variant's declaration index as its tag).
Strings are carried as their UTF-8 byte lists. -/

structure AuthToken where
  bytes : List Nat
deriving DecidableEq

structure TerminalCommand where
  id : Nat
  text : List Nat
  timestamp : Nat
deriving DecidableEq

inductive TerminalEvent where
  | output (data : List Nat)
  | error (message : List Nat)
  | exit (code : Int)
  | resized (rows cols : Nat)
  | sessionCreated (sessionId : List Nat)
  | sessionReAttach (sessionId : List Nat)
  | sessionNotFound (sessionId : List Nat)
  | sessionSwitched (sessionId : List Nat)
  | sessionClosed (sessionId : List Nat)
deriving DecidableEq

structure DirEntry where
  name : List Nat
  path : List Nat
  isDir : Bool
  isSymlink : Bool
  size : Option Nat
  modified : Option Nat
  permissions : Option (List Nat)
deriving DecidableEq

inductive FileEventType where
  | created
  | modified
  | deleted
  | renamed (oldName : List Nat)
deriving DecidableEq

inductive NetworkMessage where
  | hello (protocolVersion : Nat) (appVersion : List Nat)
      (capabilities : Nat) (authToken : Option AuthToken)
  | command (cmd : TerminalCommand)
  | input (data : List Nat)
  | event (ev : TerminalEvent)
  | ping (timestamp : Nat)
  | pong (timestamp : Nat)
  | resize (rows cols : Nat)
  | requestPty (rows cols : Nat) (shell : Option (List Nat))
      (env : List (List Nat × List Nat))
  | startShell
  | requestSnapshot
  | snapshot (data : List Nat) (rows cols : Nat)
  | close
  | listDir (path : List Nat) (depth : Option Nat)
  | dirChunk (chunkIndex totalChunks : Nat) (entries : List DirEntry)
      (hasMore : Bool)
  | watchDir (path : List Nat)
  | watchStarted (watcherId : List Nat)
  | fileEvent (watcherId path : List Nat) (eventType : FileEventType)
      (timestamp : Nat)
  | unwatchDir (watcherId : List Nat)
  | watchError (watcherId error : List Nat)
  | readFile (path : List Nat) (maxSize : Nat)
  | fileContent (path content : List Nat) (size : Nat) (truncated : Bool)
deriving DecidableEq

/-! Well-formedness: the value ranges guaranteed by the Rust types
(u16/u32/u64/usize bounds, u8 bytes, valid-UTF-8 strings, 32-byte
tokens). -/

def wfBytes (l : List Nat) : Prop :=
  l.length < 2 ^ 64 ∧ ∀ b ∈ l, b < 256

def wfString (l : List Nat) : Prop := wfBytes l ∧ validUtf8 l = true

def wfToken (t : AuthToken) : Prop :=
  t.bytes.length = 32 ∧ ∀ b ∈ t.bytes, b < 256

def wfCommand (c : TerminalCommand) : Prop :=
  c.id < 2 ^ 64 ∧ wfString c.text ∧ c.timestamp < 2 ^ 64

def wfEvent : TerminalEvent → Prop
  | .output data => wfBytes data
  | .error message => wfString message
  | .exit code => -(2 ^ 31) ≤ code ∧ code < 2 ^ 31
  | .resized rows cols => rows < 2 ^ 16 ∧ cols < 2 ^ 16
  | .sessionCreated s => wfString s
  | .sessionReAttach s => wfString s
  | .sessionNotFound s => wfString s
  | .sessionSwitched s => wfString s
  | .sessionClosed s => wfString s

def wfDirEntry (d : DirEntry) : Prop :=
  wfString d.name ∧ wfString d.path ∧
  (∀ n, d.size = some n → n < 2 ^ 64) ∧
  (∀ n, d.modified = some n → n < 2 ^ 64) ∧
  (∀ p, d.permissions = some p → wfString p)

def wfFileEventType : FileEventType → Prop
  | .renamed oldName => wfString oldName
  | _ => True

def wfMsg : NetworkMessage → Prop
  | .hello pv av cap tok =>
    pv < 2 ^ 32 ∧ wfString av ∧ cap < 2 ^ 32 ∧ (∀ t, tok = some t → wfToken t)
  | .command cmd => wfCommand cmd
  | .input data => wfBytes data
  | .event ev => wfEvent ev
  | .ping ts => ts < 2 ^ 64
  | .pong ts => ts < 2 ^ 64
  | .resize rows cols => rows < 2 ^ 16 ∧ cols < 2 ^ 16
  | .requestPty rows cols shell env =>
    rows < 2 ^ 16 ∧ cols < 2 ^ 16 ∧ (∀ s, shell = some s → wfString s) ∧
      env.length < 2 ^ 64 ∧ ∀ p ∈ env, wfString p.1 ∧ wfString p.2
  | .startShell => True
  | .requestSnapshot => True
  | .snapshot data rows cols => wfBytes data ∧ rows < 2 ^ 16 ∧ cols < 2 ^ 16
  | .close => True
  | .listDir path depth => wfString path ∧ (∀ n, depth = some n → n < 2 ^ 32)
  | .dirChunk ci tc entries _ =>
    ci < 2 ^ 32 ∧ tc < 2 ^ 32 ∧ entries.length < 2 ^ 64 ∧
      ∀ d ∈ entries, wfDirEntry d
  | .watchDir path => wfString path
  | .watchStarted w => wfString w
  | .fileEvent w p et ts =>
    wfString w ∧ wfString p ∧ wfFileEventType et ∧ ts < 2 ^ 64
  | .unwatchDir w => wfString w
  | .watchError w e => wfString w ∧ wfString e
  | .readFile path maxSize => wfString path ∧ maxSize < 2 ^ 64
  | .fileContent path content size _ =>
    wfString path ∧ wfString content ∧ size < 2 ^ 64

/-! Postcard serialization of the wire types: derived `Serialize` writes
struct fields in order and an enum as its varint variant index followed
by the fields. -/

def serToken (t : AuthToken) : List Nat := t.bytes

def deserToken (l : List Nat) : Option (AuthToken × List Nat) :=
  match deserArr32 l with
  | some (bs, r) => some (AuthToken.mk bs, r)
  | none => none

def serCommand (c : TerminalCommand) : List Nat :=
  serVarint c.id ++ serString c.text ++ serVarint c.timestamp

def deserCommand (l : List Nat) : Option (TerminalCommand × List Nat) :=
  match deserVarint 10 l with
  | some (id, r1) =>
    match deserString r1 with
    | some (text, r2) =>
      match deserVarint 10 r2 with
      | some (ts, r3) => some (TerminalCommand.mk id text ts, r3)
      | none => none
    | none => none
  | none => none

def serEvent : TerminalEvent → List Nat
  | .output data => serVarint 0 ++ serBytes data
  | .error message => serVarint 1 ++ serString message
  | .exit code => serVarint 2 ++ serI32 code
  | .resized rows cols => serVarint 3 ++ serVarint rows ++ serVarint cols
  | .sessionCreated s => serVarint 4 ++ serString s
  | .sessionReAttach s => serVarint 5 ++ serString s
  | .sessionNotFound s => serVarint 6 ++ serString s
  | .sessionSwitched s => serVarint 7 ++ serString s
  | .sessionClosed s => serVarint 8 ++ serString s

def deserEventWithTag (tag : Nat) (r : List Nat) :
    Option (TerminalEvent × List Nat) :=
  if tag = 0 then
    match deserBytes r with
    | some (data, r1) => some (.output data, r1)
    | none => none
  else if tag = 1 then
    match deserString r with
    | some (m, r1) => some (.error m, r1)
    | none => none
  else if tag = 2 then
    match deserI32 r with
    | some (code, r1) => some (.exit code, r1)
    | none => none
  else if tag = 3 then
    match deserVarint 3 r with
    | some (rows, r1) =>
      match deserVarint 3 r1 with
      | some (cols, r2) => some (.resized rows cols, r2)
      | none => none
    | none => none
  else if tag = 4 then
    match deserString r with
    | some (s, r1) => some (.sessionCreated s, r1)
    | none => none
  else if tag = 5 then
    match deserString r with
    | some (s, r1) => some (.sessionReAttach s, r1)
    | none => none
  else if tag = 6 then
    match deserString r with
    | some (s, r1) => some (.sessionNotFound s, r1)
    | none => none
  else if tag = 7 then
    match deserString r with
    | some (s, r1) => some (.sessionSwitched s, r1)
    | none => none
  else if tag = 8 then
    match deserString r with
    | some (s, r1) => some (.sessionClosed s, r1)
    | none => none
  else none

def deserEvent (l : List Nat) : Option (TerminalEvent × List Nat) :=
  match deserVarint 5 l with
  | some (tag, r) => deserEventWithTag tag r
  | none => none

def serDirEntry (d : DirEntry) : List Nat :=
  serString d.name ++ serString d.path ++ serBool d.isDir ++
    serBool d.isSymlink ++ serOption serVarint d.size ++
    serOption serVarint d.modified ++ serOption serString d.permissions

def deserDirEntry (l : List Nat) : Option (DirEntry × List Nat) :=
  match deserString l with
  | some (name, r1) =>
    match deserString r1 with
    | some (path, r2) =>
      match deserBool r2 with
      | some (isDir, r3) =>
        match deserBool r3 with
        | some (isSymlink, r4) =>
          match deserOption (deserVarint 10) r4 with
          | some (size, r5) =>
            match deserOption (deserVarint 10) r5 with
            | some (modified, r6) =>
              match deserOption deserString r6 with
              | some (perms, r7) =>
                some (DirEntry.mk name path isDir isSymlink size modified perms, r7)
              | none => none
            | none => none
          | none => none
        | none => none
      | none => none
    | none => none
  | none => none

def serFileEventType : FileEventType → List Nat
  | .created => serVarint 0
  | .modified => serVarint 1
  | .deleted => serVarint 2
  | .renamed oldName => serVarint 3 ++ serString oldName

def deserFileEventTypeWithTag (tag : Nat) (r : List Nat) :
    Option (FileEventType × List Nat) :=
  if tag = 0 then some (.created, r)
  else if tag = 1 then some (.modified, r)
  else if tag = 2 then some (.deleted, r)
  else if tag = 3 then
    match deserString r with
    | some (s, r1) => some (.renamed s, r1)
    | none => none
  else none

def deserFileEventType (l : List Nat) : Option (FileEventType × List Nat) :=
  match deserVarint 5 l with
  | some (tag, r) => deserFileEventTypeWithTag tag r
  | none => none

def serPair (p : List Nat × List Nat) : List Nat :=
  serString p.1 ++ serString p.2

def deserPair (l : List Nat) : Option ((List Nat × List Nat) × List Nat) :=
  match deserString l with
  | some (a, r1) =>
    match deserString r1 with
    | some (b, r2) => some ((a, b), r2)
    | none => none
  | none => none

def serNetworkMessage : NetworkMessage → List Nat
  | .hello pv av cap tok =>
    serVarint 0 ++ serVarint pv ++ serString av ++ serVarint cap ++
      serOption serToken tok
  | .command cmd => serVarint 1 ++ serCommand cmd
  | .input data => serVarint 2 ++ serBytes data
  | .event ev => serVarint 3 ++ serEvent ev
  | .ping ts => serVarint 4 ++ serVarint ts
  | .pong ts => serVarint 5 ++ serVarint ts
  | .resize rows cols => serVarint 6 ++ serVarint rows ++ serVarint cols
  | .requestPty rows cols shell env =>
    serVarint 7 ++ serVarint rows ++ serVarint cols ++
      serOption serString shell ++ serSeq serPair env
  | .startShell => serVarint 8
  | .requestSnapshot => serVarint 9
  | .snapshot data rows cols =>
    serVarint 10 ++ serBytes data ++ serVarint rows ++ serVarint cols
  | .close => serVarint 11
  | .listDir path depth =>
    serVarint 12 ++ serString path ++ serOption serVarint depth
  | .dirChunk ci tc entries hasMore =>
    serVarint 13 ++ serVarint ci ++ serVarint tc ++
      serSeq serDirEntry entries ++ serBool hasMore
  | .watchDir path => serVarint 14 ++ serString path
  | .watchStarted w => serVarint 15 ++ serString w
  | .fileEvent w p et ts =>
    serVarint 16 ++ serString w ++ serString p ++ serFileEventType et ++
      serVarint ts
  | .unwatchDir w => serVarint 17 ++ serString w
  | .watchError w e => serVarint 18 ++ serString w ++ serString e
  | .readFile path maxSize =>
    serVarint 19 ++ serString path ++ serVarint maxSize
  | .fileContent path content size truncated =>
    serVarint 20 ++ serString path ++ serString content ++
      serVarint size ++ serBool truncated

def deserMsgWithTag (tag : Nat) (r : List Nat) :
    Option (NetworkMessage × List Nat) :=
  if tag = 0 then
    match deserVarint 5 r with
    | some (pv, r1) =>
      match deserString r1 with
      | some (av, r2) =>
        match deserVarint 5 r2 with
        | some (cap, r3) =>
          match deserOption deserToken r3 with
          | some (tok, r4) => some (.hello pv av cap tok, r4)
          | none => none
        | none => none
      | none => none
    | none => none
  else if tag = 1 then
    match deserCommand r with
    | some (cmd, r1) => some (.command cmd, r1)
    | none => none
  else if tag = 2 then
    match deserBytes r with
    | some (data, r1) => some (.input data, r1)
    | none => none
  else if tag = 3 then
    match deserEvent r with
    | some (ev, r1) => some (.event ev, r1)
    | none => none
  else if tag = 4 then
    match deserVarint 10 r with
    | some (ts, r1) => some (.ping ts, r1)
    | none => none
  else if tag = 5 then
    match deserVarint 10 r with
    | some (ts, r1) => some (.pong ts, r1)
    | none => none
  else if tag = 6 then
    match deserVarint 3 r with
    | some (rows, r1) =>
      match deserVarint 3 r1 with
      | some (cols, r2) => some (.resize rows cols, r2)
      | none => none
    | none => none
  else if tag = 7 then
    match deserVarint 3 r with
    | some (rows, r1) =>
      match deserVarint 3 r1 with
      | some (cols, r2) =>
        match deserOption deserString r2 with
        | some (shell, r3) =>
          match deserSeq deserPair r3 with
          | some (env, r4) => some (.requestPty rows cols shell env, r4)
          | none => none
        | none => none
      | none => none
    | none => none
  else if tag = 8 then some (.startShell, r)
  else if tag = 9 then some (.requestSnapshot, r)
  else if tag = 10 then
    match deserBytes r with
    | some (data, r1) =>
      match deserVarint 3 r1 with
      | some (rows, r2) =>
        match deserVarint 3 r2 with
        | some (cols, r3) => some (.snapshot data rows cols, r3)
        | none => none
      | none => none
    | none => none
  else if tag = 11 then some (.close, r)
  else if tag = 12 then
    match deserString r with
    | some (path, r1) =>
      match deserOption (deserVarint 5) r1 with
      | some (depth, r2) => some (.listDir path depth, r2)
      | none => none
    | none => none
  else if tag = 13 then
    match deserVarint 5 r with
    | some (ci, r1) =>
      match deserVarint 5 r1 with
      | some (tc, r2) =>
        match deserSeq deserDirEntry r2 with
        | some (entries, r3) =>
          match deserBool r3 with
          | some (hasMore, r4) => some (.dirChunk ci tc entries hasMore, r4)
          | none => none
        | none => none
      | none => none
    | none => none
  else if tag = 14 then
    match deserString r with
    | some (path, r1) => some (.watchDir path, r1)
    | none => none
  else if tag = 15 then
    match deserString r with
    | some (w, r1) => some (.watchStarted w, r1)
    | none => none
  else if tag = 16 then
    match deserString r with
    | some (w, r1) =>
      match deserString r1 with
      | some (p, r2) =>
        match deserFileEventType r2 with
        | some (et, r3) =>
          match deserVarint 10 r3 with
          | some (ts, r4) => some (.fileEvent w p et ts, r4)
          | none => none
        | none => none
      | none => none
    | none => none
  else if tag = 17 then
    match deserString r with
    | some (w, r1) => some (.unwatchDir w, r1)
    | none => none
  else if tag = 18 then
    match deserString r with
    | some (w, r1) =>
      match deserString r1 with
      | some (e, r2) => some (.watchError w e, r2)
      | none => none
    | none => none
  else if tag = 19 then
    match deserString r with
    | some (path, r1) =>
      match deserVarint 10 r1 with
      | some (ms, r2) => some (.readFile path ms, r2)
      | none => none
    | none => none
  else if tag = 20 then
    match deserString r with
    | some (path, r1) =>
      match deserString r1 with
      | some (content, r2) =>
        match deserVarint 10 r2 with
        | some (size, r3) =>
          match deserBool r3 with
          | some (truncated, r4) =>
            some (.fileContent path content size truncated, r4)
          | none => none
        | none => none
      | none => none
    | none => none
  else none

def deserNetworkMessage (l : List Nat) :
    Option (NetworkMessage × List Nat) :=
  match deserVarint 5 l with
  | some (tag, r) => deserMsgWithTag tag r
  | none => none


/-- Model of `postcard::from_bytes`: deserialize a `NetworkMessage` from
the front of the buffer (trailing bytes are not an error). -/
def fromBytes (l : List Nat) : Option NetworkMessage :=
  match deserNetworkMessage l with
  | some (m, _) => some m
  | none => none

/-! ### Serializer/deserializer roundtrip -/

theorem serVarint_small (n : Nat) (h : n < 128) : serVarint n = [n] := by
  rw [serVarint]; simp [h]

theorem deserVarint_cons_small (fuel b : Nat) (r : List Nat) (hb : b < 128) :
    deserVarint (fuel + 1) (b :: r) = some (b, r) := by
  simp [deserVarint, hb]

theorem deserToken_serToken (t : AuthToken) (rest : List Nat) (h : wfToken t) :
    deserToken (serToken t ++ rest) = some (t, rest) := by
  unfold serToken deserToken
  rw [deserArr32_append _ _ h.1]

theorem deserCommand_serCommand (c : TerminalCommand) (rest : List Nat)
    (h : wfCommand c) :
    deserCommand (serCommand c ++ rest) = some (c, rest) := by
  obtain ⟨h1, h2, h3⟩ := h
  simp only [serCommand, List.append_assoc, deserCommand]
  rw [deserVarint10_ser c.id _ h1]
  simp only []
  rw [deserString_serString c.text _ h2.1.1 h2.2]
  simp only []
  rw [deserVarint10_ser c.timestamp _ h3]

theorem deserEvent_serEvent (ev : TerminalEvent) (rest : List Nat)
    (h : wfEvent ev) :
    deserEvent (serEvent ev ++ rest) = some (ev, rest) := by
  cases ev with
  | output data =>
    simp only [serEvent, List.append_assoc, deserEvent]
    rw [serVarint_small 0 (by norm_num)]
    simp only [List.cons_append, List.nil_append]
    rw [deserVarint_cons_small 4 0 _ (by norm_num)]
    simp only [deserEventWithTag]
    norm_num
    rw [deserBytes_serBytes data rest h.1]
  | error m =>
    simp only [serEvent, List.append_assoc, deserEvent]
    rw [serVarint_small 1 (by norm_num)]
    simp only [List.cons_append, List.nil_append]
    rw [deserVarint_cons_small 4 1 _ (by norm_num)]
    simp only [deserEventWithTag]
    norm_num
    rw [deserString_serString m rest h.1.1 h.2]
  | exit code =>
    simp only [serEvent, List.append_assoc, deserEvent]
    rw [serVarint_small 2 (by norm_num)]
    simp only [List.cons_append, List.nil_append]
    rw [deserVarint_cons_small 4 2 _ (by norm_num)]
    simp only [deserEventWithTag]
    norm_num
    rw [deserI32_serI32 code rest h.1 h.2]
  | resized rows cols =>
    simp only [serEvent, List.append_assoc, deserEvent]
    rw [serVarint_small 3 (by norm_num)]
    simp only [List.cons_append, List.nil_append]
    rw [deserVarint_cons_small 4 3 _ (by norm_num)]
    simp only [deserEventWithTag]
    norm_num
    rw [deserVarint3_ser rows _ h.1]
    simp only []
    rw [deserVarint3_ser cols rest h.2]
  | sessionCreated s =>
    simp only [serEvent, List.append_assoc, deserEvent]
    rw [serVarint_small 4 (by norm_num)]
    simp only [List.cons_append, List.nil_append]
    rw [deserVarint_cons_small 4 4 _ (by norm_num)]
    simp only [deserEventWithTag]
    norm_num
    rw [deserString_serString s rest h.1.1 h.2]
  | sessionReAttach s =>
    simp only [serEvent, List.append_assoc, deserEvent]
    rw [serVarint_small 5 (by norm_num)]
    simp only [List.cons_append, List.nil_append]
    rw [deserVarint_cons_small 4 5 _ (by norm_num)]
    simp only [deserEventWithTag]
    norm_num
    rw [deserString_serString s rest h.1.1 h.2]
  | sessionNotFound s =>
    simp only [serEvent, List.append_assoc, deserEvent]
    rw [serVarint_small 6 (by norm_num)]
    simp only [List.cons_append, List.nil_append]
    rw [deserVarint_cons_small 4 6 _ (by norm_num)]
    simp only [deserEventWithTag]
    norm_num
    rw [deserString_serString s rest h.1.1 h.2]
  | sessionSwitched s =>
    simp only [serEvent, List.append_assoc, deserEvent]
    rw [serVarint_small 7 (by norm_num)]
    simp only [List.cons_append, List.nil_append]
    rw [deserVarint_cons_small 4 7 _ (by norm_num)]
    simp only [deserEventWithTag]
    norm_num
    rw [deserString_serString s rest h.1.1 h.2]
  | sessionClosed s =>
    simp only [serEvent, List.append_assoc, deserEvent]
    rw [serVarint_small 8 (by norm_num)]
    simp only [List.cons_append, List.nil_append]
    rw [deserVarint_cons_small 4 8 _ (by norm_num)]
    simp only [deserEventWithTag]
    norm_num
    rw [deserString_serString s rest h.1.1 h.2]

theorem deserFileEventType_ser (et : FileEventType) (rest : List Nat)
    (h : wfFileEventType et) :
    deserFileEventType (serFileEventType et ++ rest) = some (et, rest) := by
  cases et with
  | created =>
    simp only [serFileEventType, deserFileEventType]
    rw [serVarint_small 0 (by norm_num)]
    simp only [List.cons_append, List.nil_append]
    rw [deserVarint_cons_small 4 0 _ (by norm_num)]
    simp [deserFileEventTypeWithTag]
  | modified =>
    simp only [serFileEventType, deserFileEventType]
    rw [serVarint_small 1 (by norm_num)]
    simp only [List.cons_append, List.nil_append]
    rw [deserVarint_cons_small 4 1 _ (by norm_num)]
    simp [deserFileEventTypeWithTag]
  | deleted =>
    simp only [serFileEventType, deserFileEventType]
    rw [serVarint_small 2 (by norm_num)]
    simp only [List.cons_append, List.nil_append]
    rw [deserVarint_cons_small 4 2 _ (by norm_num)]
    simp [deserFileEventTypeWithTag]
  | renamed oldName =>
    simp only [serFileEventType, List.append_assoc, deserFileEventType]
    rw [serVarint_small 3 (by norm_num)]
    simp only [List.cons_append, List.nil_append]
    rw [deserVarint_cons_small 4 3 _ (by norm_num)]
    simp only [deserFileEventTypeWithTag]
    norm_num
    rw [deserString_serString oldName rest h.1.1 h.2]

theorem deserPair_serPair (p : List Nat × List Nat) (rest : List Nat)
    (h1 : wfString p.1) (h2 : wfString p.2) :
    deserPair (serPair p ++ rest) = some (p, rest) := by
  simp only [serPair, List.append_assoc, deserPair]
  rw [deserString_serString p.1 _ h1.1.1 h1.2]
  simp only []
  rw [deserString_serString p.2 rest h2.1.1 h2.2]

theorem deserDirEntry_serDirEntry (d : DirEntry) (rest : List Nat)
    (h : wfDirEntry d) :
    deserDirEntry (serDirEntry d ++ rest) = some (d, rest) := by
  obtain ⟨hn, hp, hs, hm, hperm⟩ := h
  simp only [serDirEntry, List.append_assoc, deserDirEntry]
  rw [deserString_serString d.name _ hn.1.1 hn.2]
  simp only []
  rw [deserString_serString d.path _ hp.1.1 hp.2]
  simp only []
  rw [deserBool_serBool d.isDir]
  simp only []
  rw [deserBool_serBool d.isSymlink]
  simp only []
  rw [deserOption_serOption serVarint (deserVarint 10) d.size _
    (fun n hn2 => deserVarint10_ser n _ (hs n hn2))]
  simp only []
  rw [deserOption_serOption serVarint (deserVarint 10) d.modified _
    (fun n hn2 => deserVarint10_ser n _ (hm n hn2))]
  simp only []
  rw [deserOption_serOption serString deserString d.permissions _
    (fun p hp2 => deserString_serString p _ (hperm p hp2).1.1 (hperm p hp2).2)]

/-- Postcard roundtrip: deserializing a serialized well-formed
`NetworkMessage` with any trailing bytes yields the message and leaves
the trailing bytes. -/
theorem deserNetworkMessage_ser (m : NetworkMessage) (rest : List Nat)
    (h : wfMsg m) :
    deserNetworkMessage (serNetworkMessage m ++ rest) = some (m, rest) := by
  cases m with
  | hello pv av cap tok =>
    obtain ⟨h1, h2, h3, h4⟩ := h
    simp only [serNetworkMessage, List.append_assoc, deserNetworkMessage]
    rw [serVarint_small 0 (by norm_num)]
    simp only [List.cons_append, List.nil_append]
    rw [deserVarint_cons_small 4 0 _ (by norm_num)]
    simp only [deserMsgWithTag]
    norm_num
    rw [deserVarint5_ser pv _ h1]
    simp only []
    rw [deserString_serString av _ h2.1.1 h2.2]
    simp only []
    rw [deserVarint5_ser cap _ h3]
    simp only []
    rw [deserOption_serOption serToken deserToken tok _
      (fun t ht => deserToken_serToken t _ (h4 t ht))]
  | command cmd =>
    simp only [serNetworkMessage, List.append_assoc, deserNetworkMessage]
    rw [serVarint_small 1 (by norm_num)]
    simp only [List.cons_append, List.nil_append]
    rw [deserVarint_cons_small 4 1 _ (by norm_num)]
    simp only [deserMsgWithTag]
    norm_num
    rw [deserCommand_serCommand cmd rest h]
  | input data =>
    simp only [serNetworkMessage, List.append_assoc, deserNetworkMessage]
    rw [serVarint_small 2 (by norm_num)]
    simp only [List.cons_append, List.nil_append]
    rw [deserVarint_cons_small 4 2 _ (by norm_num)]
    simp only [deserMsgWithTag]
    norm_num
    rw [deserBytes_serBytes data rest h.1]
  | event ev =>
    simp only [serNetworkMessage, List.append_assoc, deserNetworkMessage]
    rw [serVarint_small 3 (by norm_num)]
    simp only [List.cons_append, List.nil_append]
    rw [deserVarint_cons_small 4 3 _ (by norm_num)]
    simp only [deserMsgWithTag]
    norm_num
    rw [deserEvent_serEvent ev rest h]
  | ping ts =>
    simp only [serNetworkMessage, List.append_assoc, deserNetworkMessage]
    rw [serVarint_small 4 (by norm_num)]
    simp only [List.cons_append, List.nil_append]
    rw [deserVarint_cons_small 4 4 _ (by norm_num)]
    simp only [deserMsgWithTag]
    norm_num
    rw [deserVarint10_ser ts rest h]
  | pong ts =>
    simp only [serNetworkMessage, List.append_assoc, deserNetworkMessage]
    rw [serVarint_small 5 (by norm_num)]
    simp only [List.cons_append, List.nil_append]
    rw [deserVarint_cons_small 4 5 _ (by norm_num)]
    simp only [deserMsgWithTag]
    norm_num
    rw [deserVarint10_ser ts rest h]
  | resize rows cols =>
    simp only [serNetworkMessage, List.append_assoc, deserNetworkMessage]
    rw [serVarint_small 6 (by norm_num)]
    simp only [List.cons_append, List.nil_append]
    rw [deserVarint_cons_small 4 6 _ (by norm_num)]
    simp only [deserMsgWithTag]
    norm_num
    rw [deserVarint3_ser rows _ h.1]
    simp only []
    rw [deserVarint3_ser cols rest h.2]
  | requestPty rows cols shell env =>
    obtain ⟨h1, h2, h3, h4, h5⟩ := h
    simp only [serNetworkMessage, List.append_assoc, deserNetworkMessage]
    rw [serVarint_small 7 (by norm_num)]
    simp only [List.cons_append, List.nil_append]
    rw [deserVarint_cons_small 4 7 _ (by norm_num)]
    simp only [deserMsgWithTag]
    norm_num
    rw [deserVarint3_ser rows _ h1]
    simp only []
    rw [deserVarint3_ser cols _ h2]
    simp only []
    rw [deserOption_serOption serString deserString shell _
      (fun s hs => deserString_serString s _ (h3 s hs).1.1 (h3 s hs).2)]
    simp only []
    rw [deserSeq_serSeq serPair deserPair env rest h4
      (fun p hp r => deserPair_serPair p r (h5 p hp).1 (h5 p hp).2)]
  | startShell =>
    simp only [serNetworkMessage, deserNetworkMessage]
    rw [serVarint_small 8 (by norm_num)]
    simp only [List.cons_append, List.nil_append]
    rw [deserVarint_cons_small 4 8 _ (by norm_num)]
    simp [deserMsgWithTag]
  | requestSnapshot =>
    simp only [serNetworkMessage, deserNetworkMessage]
    rw [serVarint_small 9 (by norm_num)]
    simp only [List.cons_append, List.nil_append]
    rw [deserVarint_cons_small 4 9 _ (by norm_num)]
    simp [deserMsgWithTag]
  | snapshot data rows cols =>
    obtain ⟨h1, h2, h3⟩ := h
    simp only [serNetworkMessage, List.append_assoc, deserNetworkMessage]
    rw [serVarint_small 10 (by norm_num)]
    simp only [List.cons_append, List.nil_append]
    rw [deserVarint_cons_small 4 10 _ (by norm_num)]
    simp only [deserMsgWithTag]
    norm_num
    rw [deserBytes_serBytes data _ h1.1]
    simp only []
    rw [deserVarint3_ser rows _ h2]
    simp only []
    rw [deserVarint3_ser cols rest h3]
  | close =>
    simp only [serNetworkMessage, deserNetworkMessage]
    rw [serVarint_small 11 (by norm_num)]
    simp only [List.cons_append, List.nil_append]
    rw [deserVarint_cons_small 4 11 _ (by norm_num)]
    simp [deserMsgWithTag]
  | listDir path depth =>
    obtain ⟨h1, h2⟩ := h
    simp only [serNetworkMessage, List.append_assoc, deserNetworkMessage]
    rw [serVarint_small 12 (by norm_num)]
    simp only [List.cons_append, List.nil_append]
    rw [deserVarint_cons_small 4 12 _ (by norm_num)]
    simp only [deserMsgWithTag]
    norm_num
    rw [deserString_serString path _ h1.1.1 h1.2]
    simp only []
    rw [deserOption_serOption serVarint (deserVarint 5) depth _
      (fun n hn => deserVarint5_ser n _ (h2 n hn))]
  | dirChunk ci tc entries hasMore =>
    obtain ⟨h1, h2, h3, h4⟩ := h
    simp only [serNetworkMessage, List.append_assoc, deserNetworkMessage]
    rw [serVarint_small 13 (by norm_num)]
    simp only [List.cons_append, List.nil_append]
    rw [deserVarint_cons_small 4 13 _ (by norm_num)]
    simp only [deserMsgWithTag]
    norm_num
    rw [deserVarint5_ser ci _ h1]
    simp only []
    rw [deserVarint5_ser tc _ h2]
    simp only []
    rw [deserSeq_serSeq serDirEntry deserDirEntry entries _ h3
      (fun d hd r => deserDirEntry_serDirEntry d r (h4 d hd))]
    simp only []
    rw [deserBool_serBool hasMore]
  | watchDir path =>
    simp only [serNetworkMessage, List.append_assoc, deserNetworkMessage]
    rw [serVarint_small 14 (by norm_num)]
    simp only [List.cons_append, List.nil_append]
    rw [deserVarint_cons_small 4 14 _ (by norm_num)]
    simp only [deserMsgWithTag]
    norm_num
    rw [deserString_serString path rest h.1.1 h.2]
  | watchStarted w =>
    simp only [serNetworkMessage, List.append_assoc, deserNetworkMessage]
    rw [serVarint_small 15 (by norm_num)]
    simp only [List.cons_append, List.nil_append]
    rw [deserVarint_cons_small 4 15 _ (by norm_num)]
    simp only [deserMsgWithTag]
    norm_num
    rw [deserString_serString w rest h.1.1 h.2]
  | fileEvent w p et ts =>
    obtain ⟨h1, h2, h3, h4⟩ := h
    simp only [serNetworkMessage, List.append_assoc, deserNetworkMessage]
    rw [serVarint_small 16 (by norm_num)]
    simp only [List.cons_append, List.nil_append]
    rw [deserVarint_cons_small 4 16 _ (by norm_num)]
    simp only [deserMsgWithTag]
    norm_num
    rw [deserString_serString w _ h1.1.1 h1.2]
    simp only []
    rw [deserString_serString p _ h2.1.1 h2.2]
    simp only []
    rw [deserFileEventType_ser et _ h3]
    simp only []
    rw [deserVarint10_ser ts rest h4]
  | unwatchDir w =>
    simp only [serNetworkMessage, List.append_assoc, deserNetworkMessage]
    rw [serVarint_small 17 (by norm_num)]
    simp only [List.cons_append, List.nil_append]
    rw [deserVarint_cons_small 4 17 _ (by norm_num)]
    simp only [deserMsgWithTag]
    norm_num
    rw [deserString_serString w rest h.1.1 h.2]
  | watchError w e =>
    obtain ⟨h1, h2⟩ := h
    simp only [serNetworkMessage, List.append_assoc, deserNetworkMessage]
    rw [serVarint_small 18 (by norm_num)]
    simp only [List.cons_append, List.nil_append]
    rw [deserVarint_cons_small 4 18 _ (by norm_num)]
    simp only [deserMsgWithTag]
    norm_num
    rw [deserString_serString w _ h1.1.1 h1.2]
    simp only []
    rw [deserString_serString e rest h2.1.1 h2.2]
  | readFile path maxSize =>
    obtain ⟨h1, h2⟩ := h
    simp only [serNetworkMessage, List.append_assoc, deserNetworkMessage]
    rw [serVarint_small 19 (by norm_num)]
    simp only [List.cons_append, List.nil_append]
    rw [deserVarint_cons_small 4 19 _ (by norm_num)]
    simp only [deserMsgWithTag]
    norm_num
    rw [deserString_serString path _ h1.1.1 h1.2]
    simp only []
    rw [deserVarint10_ser maxSize rest h2]
  | fileContent path content size truncated =>
    obtain ⟨h1, h2, h3⟩ := h
    simp only [serNetworkMessage, List.append_assoc, deserNetworkMessage]
    rw [serVarint_small 20 (by norm_num)]
    simp only [List.cons_append, List.nil_append]
    rw [deserVarint_cons_small 4 20 _ (by norm_num)]
    simp only [deserMsgWithTag]
    norm_num
    rw [deserString_serString path _ h1.1.1 h1.2]
    simp only []
    rw [deserString_serString content _ h2.1.1 h2.2]
    simp only []
    rw [deserVarint10_ser size _ h3]
    simp only []
    rw [deserBool_serBool truncated]

theorem fromBytes_ser (m : NetworkMessage) (h : wfMsg m) :
    fromBytes (serNetworkMessage m) = some m := by
  unfold fromBytes
  have := deserNetworkMessage_ser m [] h
  rw [List.append_nil] at this
  rw [this]

/-! ### Framing codec (crates/core/src/protocol/codec.rs)

`MessageCodec::encode` / `decode` / `decode_stream`, and the server's
frame splitter `QuicServer::try_decode_message`
(crates/hostagent/src/quic_server.rs). -/

/-- The subset of `CoreError` (crates/core/src/error.rs) reachable from
the embedded code.  `serialization` stands for
`CoreError::Serialization(postcard::Error)` with the library error
payload dropped. -/
inductive CoreErr where
  | serialization
  | invalidMessageFormat (msg : String)
  | messageTooLarge (size maxSize : Nat)
  | connection (msg : String)
  | ipBanned (ip : Nat)
  | rateLimitExceeded
  | invalidTokenFormat
deriving DecidableEq

instance {ε α : Type} [DecidableEq ε] [DecidableEq α] :
    DecidableEq (Except ε α) := fun a b =>
  match a, b with
  | .ok x, .ok y =>
    if h : x = y then .isTrue (by rw [h])
    else .isFalse (fun hc => h (by cases hc; rfl))
  | .ok _, .error _ => .isFalse (fun hc => by cases hc)
  | .error _, .ok _ => .isFalse (fun hc => by cases hc)
  | .error x, .error y =>
    if h : x = y then .isTrue (by rw [h])
    else .isFalse (fun hc => h (by cases hc; rfl))

def MAX_MESSAGE_SIZE : Nat := 16 * 1024 * 1024

/-- `u32::to_be_bytes` of a length that fits in 32 bits. -/
def toBe32 (n : Nat) : List Nat :=
  [n / 2 ^ 24 % 256, n / 2 ^ 16 % 256, n / 2 ^ 8 % 256, n % 256]

/-- `u32::from_be_bytes`. -/
def fromBe32 (b0 b1 b2 b3 : Nat) : Nat :=
  ((b0 * 256 + b1) * 256 + b2) * 256 + b3

theorem fromBe32_toBe32 (n : Nat) (h : n < 2 ^ 32) :
    fromBe32 (n / 2 ^ 24 % 256) (n / 2 ^ 16 % 256) (n / 2 ^ 8 % 256)
      (n % 256) = n := by
  unfold fromBe32
  omega

/-- `MessageCodec::encode`: serialize, enforce the 16 MiB cap, prefix the
4-byte big-endian length.  (For this message type postcard's
`to_allocvec` itself cannot fail.) -/
def encode (m : NetworkMessage) : Except CoreErr (List Nat) :=
  let payload := serNetworkMessage m
  if payload.length > MAX_MESSAGE_SIZE then
    .error (.messageTooLarge payload.length MAX_MESSAGE_SIZE)
  else
    .ok (toBe32 payload.length ++ payload)

/-- `MessageCodec::decode`: length-prefix checks, then deserialize
`buf[4 .. 4+len]`. -/
def decode (buf : List Nat) : Except CoreErr NetworkMessage :=
  match buf with
  | b0 :: b1 :: b2 :: b3 :: rest =>
    let len := fromBe32 b0 b1 b2 b3
    if len > MAX_MESSAGE_SIZE then
      .error (.messageTooLarge len MAX_MESSAGE_SIZE)
    else if rest.length < len then
      .error (.invalidMessageFormat "Buffer too small for payload")
    else
      match fromBytes (rest.take len) with
      | some m => .ok m
      | none => .error .serialization
  | _ => .error (.invalidMessageFormat "Buffer too small for length prefix")

/-- The `while` loop of `MessageCodec::decode_stream`, with the running
`offset` cursor made explicit and returned alongside the accumulated
messages.  Note the loop checks only frame completeness, not the 16 MiB
cap. -/
def decodeStreamLoop (buf : List Nat) (offset : Nat)
    (acc : List NetworkMessage) : Except CoreErr (List NetworkMessage × Nat) :=
  if _h : offset < buf.length then
    match buf.drop offset with
    | b0 :: b1 :: b2 :: b3 :: rest =>
      let len := fromBe32 b0 b1 b2 b3
      if rest.length < len then .ok (acc, offset)
      else
        match fromBytes (rest.take len) with
        | some msg => decodeStreamLoop buf (offset + 4 + len) (acc ++ [msg])
        | none => .error .serialization
    | _ => .ok (acc, offset)
  else .ok (acc, offset)
termination_by buf.length - offset
decreasing_by
  omega

/-- `MessageCodec::decode_stream`. -/
def decode_stream (buf : List Nat) : Except CoreErr (List NetworkMessage) :=
  (decodeStreamLoop buf 0 []).map (·.1)

/-- `QuicServer::try_decode_message`: `None` when fewer than 4 bytes are
buffered, the declared length exceeds 16 MiB, or the frame is incomplete;
otherwise decode the frame, substituting `NetworkMessage::Close` when the
payload fails to decode, and return the bytes past the frame. -/
def tryDecodeMessage (buf : List Nat) : Option (NetworkMessage × List Nat) :=
  match buf with
  | b0 :: b1 :: b2 :: b3 :: rest =>
    let len := fromBe32 b0 b1 b2 b3
    if len > 16 * 1024 * 1024 then none
    else if rest.length < len then none
    else
      match decode (b0 :: b1 :: b2 :: b3 :: rest.take len) with
      | .ok m => some (m, rest.drop len)
      | .error _ => some (.close, rest.drop len)
  | _ => none

theorem encode_ok (m : NetworkMessage)
    (h : (serNetworkMessage m).length ≤ MAX_MESSAGE_SIZE) :
    encode m = .ok (toBe32 (serNetworkMessage m).length ++ serNetworkMessage m) := by
  unfold encode
  rw [if_neg (by omega)]

theorem encode_ok_elim (m : NetworkMessage) (e : List Nat)
    (h : encode m = .ok e) :
    e = toBe32 (serNetworkMessage m).length ++ serNetworkMessage m ∧
      (serNetworkMessage m).length ≤ MAX_MESSAGE_SIZE := by
  unfold encode at h
  by_cases hc : (serNetworkMessage m).length > MAX_MESSAGE_SIZE
  · rw [if_pos hc] at h; exact absurd h (by simp)
  · rw [if_neg hc] at h
    simp at h
    exact ⟨h.symm, by omega⟩

theorem encode_length (m : NetworkMessage) (e : List Nat)
    (h : encode m = .ok e) :
    e.length = 4 + (serNetworkMessage m).length := by
  obtain ⟨he, _⟩ := encode_ok_elim m e h
  subst he
  simp [toBe32]
  omega

theorem decodeStreamLoop_frame (buf : List Nat) (offset : Nat)
    (acc : List NetworkMessage) (m : NetworkMessage) (e tail : List Nat)
    (hwf : wfMsg m) (henc : encode m = .ok e)
    (hdrop : buf.drop offset = e ++ tail) :
    decodeStreamLoop buf offset acc =
      decodeStreamLoop buf (offset + e.length) (acc ++ [m]) := by
  obtain ⟨he, hlen⟩ := encode_ok_elim m e henc
  have hplen : (serNetworkMessage m).length < 2 ^ 32 := by
    unfold MAX_MESSAGE_SIZE at hlen; omega
  have hoff : offset < buf.length := by
    by_contra hge
    rw [List.drop_eq_nil_of_le (by omega)] at hdrop
    have : e = [] := by
      cases e with
      | nil => rfl
      | cons a t => simp at hdrop
    rw [this] at he
    simp [toBe32] at he
  have harith : offset + 4 + (serNetworkMessage m).length = offset + e.length := by
    rw [he]
    simp [toBe32]
    ring
  rw [decodeStreamLoop]
  rw [dif_pos hoff, hdrop, he]
  simp only [toBe32, List.cons_append, List.nil_append, List.append_assoc]
  rw [fromBe32_toBe32 _ hplen]
  rw [if_neg (by simp)]
  rw [List.take_left' rfl]
  rw [fromBytes_ser m hwf]
  simp only []
  congr 1
  simp
  omega

theorem decodeStreamLoop_end (buf : List Nat) (offset : Nat)
    (acc : List NetworkMessage) (h : buf.length ≤ offset) :
    decodeStreamLoop buf offset acc = .ok (acc, offset) := by
  rw [decodeStreamLoop]
  rw [dif_neg (by omega)]

theorem decodeStreamLoop_partial (buf : List Nat) (offset : Nat)
    (acc : List NetworkMessage) (m3 : NetworkMessage) (e3 : List Nat)
    (k : Nat) (henc : encode m3 = .ok e3) (hk : k < e3.length)
    (hdrop : buf.drop offset = e3.take k) :
    decodeStreamLoop buf offset acc = .ok (acc, offset) := by
  obtain ⟨he, hlen⟩ := encode_ok_elim m3 e3 henc
  have hplen : (serNetworkMessage m3).length < 2 ^ 32 := by
    unfold MAX_MESSAGE_SIZE at hlen; omega
  have he3len : e3.length = 4 + (serNetworkMessage m3).length := by
    rw [he]; simp [toBe32]; omega
  rw [decodeStreamLoop]
  by_cases hoff : offset < buf.length
  · rw [dif_pos hoff, hdrop, he]
    simp only [toBe32, List.cons_append, List.nil_append]
    by_cases h4 : k < 4
    · interval_cases k <;> simp
    · obtain ⟨k1, rfl⟩ : ∃ k1, k = k1 + 4 := ⟨k - 4, by omega⟩
      rw [show k1 + 4 = k1 + 1 + 1 + 1 + 1 from by ring]
      simp only [List.take_succ_cons]
      rw [fromBe32_toBe32 _ hplen]
      rw [if_pos (by rw [List.length_take]; omega)]
  · rw [dif_neg hoff]

/-! ### Token store (crates/hostagent/src/auth.rs)

`TokenStore` maps tokens to creation `SystemTime`s.  Time is modelled as
`Nat` seconds; `created.elapsed()` succeeds with `now - created` exactly
when `created ≤ now` and errors when the clock went backwards, which
`validate` treats as expired. -/

def DEFAULT_TOKEN_TTL : Nat := 7 * 24 * 60 * 60

structure TokenStore where
  validTokens : List (AuthToken × Nat)
deriving DecidableEq

def lookupToken : List (AuthToken × Nat) → AuthToken → Option Nat
  | [], _ => none
  | (k, v) :: t, tok => if k = tok then some v else lookupToken t tok

/-- `TokenStore::validate`: present and not expired.  Takes `&self` under
a read lock: it returns only the boolean and cannot mutate the map (the
store after the call is the store before it). -/
def validate (s : TokenStore) (now : Nat) (tok : AuthToken) : Bool :=
  match lookupToken s.validTokens tok with
  | some createdAt =>
    if createdAt ≤ now then
      decide (now - createdAt < DEFAULT_TOKEN_TTL)
    else
      false
  | none => false

def token_count (s : TokenStore) : Nat := s.validTokens.length

/-- `TokenStore::cleanup_expired`: retain unexpired entries, return how
many were removed.  `elapsed().unwrap_or(Duration::MAX)` makes a
clock-backwards entry count as expired. -/
def cleanup_expired (s : TokenStore) (now : Nat) : TokenStore × Nat :=
  let kept := s.validTokens.filter
    (fun p => decide (p.2 ≤ now) && decide (now - p.2 < DEFAULT_TOKEN_TTL))
  (⟨kept⟩, s.validTokens.length - kept.length)

/-- `TokenStore::add_token`: insert with the current timestamp
(overwrites any previous timestamp for the same token). -/
def add_token (s : TokenStore) (now : Nat) (tok : AuthToken) : TokenStore :=
  ⟨(tok, now) :: s.validTokens.filter (fun p => !(p.1 = tok : Bool))⟩

/-! ### Rate limiter and ban set (crates/hostagent/src/ratelimit.rs)

`RateLimiterStore`.  The auth-failure map is a total function with 0 for
absent keys (`entry().or_insert(0)` / `unwrap_or(0)`); the ban set is a
list of IPs; IPs are opaque keys modelled as `Nat`.  The governor bucket
(`limiter.check_key`, third-party crate with its own clock) is abstracted
as the boolean `quotaOk` argument of `check`: the claims under proof only
need that the ban test precedes the bucket and that the bucket does not
consult auth-failure state. -/

def AUTH_FAIL_THRESHOLD : Nat := 3

structure RateLimiterStore where
  authFailures : Nat → Nat
  bannedIps : List Nat

def is_banned (s : RateLimiterStore) (ip : Nat) : Bool := ip ∈ s.bannedIps

def ban_ip (s : RateLimiterStore) (ip : Nat) : RateLimiterStore :=
  { s with bannedIps := if ip ∈ s.bannedIps then s.bannedIps else ip :: s.bannedIps }

/-- `RateLimiterStore::check`: the ban list is consulted first; only then
is one token taken from the per-IP bucket (whose verdict is `quotaOk`). -/
def check (s : RateLimiterStore) (ip : Nat) (quotaOk : Bool) :
    Except CoreErr Unit :=
  if is_banned s ip then .error (.ipBanned ip)
  else if quotaOk then .ok () else .error .rateLimitExceeded

/-- `RateLimiterStore::record_auth_failure`: bump the per-IP counter; at
the threshold (3) insert into the permanent ban set and return
`IpBanned`. -/
def record_auth_failure (s : RateLimiterStore) (ip : Nat) :
    RateLimiterStore × Except CoreErr Unit :=
  let count := s.authFailures ip + 1
  let s1 : RateLimiterStore :=
    { s with authFailures := fun k => if k = ip then count else s.authFailures k }
  if count ≥ AUTH_FAIL_THRESHOLD then
    (ban_ip s1 ip, .error (.ipBanned ip))
  else
    (s1, .ok ())

/-- `RateLimiterStore::reset_auth_failures`: remove the counter (an
absent key reads back as 0). -/
def reset_auth_failures (s : RateLimiterStore) (ip : Nat) : RateLimiterStore :=
  { s with authFailures := fun k => if k = ip then 0 else s.authFailures k }

def auth_failure_count (s : RateLimiterStore) (ip : Nat) : Nat :=
  s.authFailures ip

theorem record_failure_counts (s : RateLimiterStore) (ip : Nat) :
    auth_failure_count (record_auth_failure s ip).1 ip =
      auth_failure_count s ip + 1 := by
  simp only [record_auth_failure, auth_failure_count, ban_ip]
  split <;> simp

theorem record_failure_bans_mono (s : RateLimiterStore) (ip j : Nat)
    (h : j ∈ s.bannedIps) : j ∈ (record_auth_failure s ip).1.bannedIps := by
  simp only [record_auth_failure, ban_ip]
  split
  · split <;> simp [h]
  · simpa using h

theorem record_failure_bans_over_threshold (s : RateLimiterStore) (ip : Nat)
    (h : AUTH_FAIL_THRESHOLD ≤ s.authFailures ip + 1) :
    ip ∈ (record_auth_failure s ip).1.bannedIps := by
  simp only [record_auth_failure, ban_ip]
  rw [if_pos (by omega)]
  simp only []
  split <;> simp_all

/-! ### AuthToken::from_hex (crates/core/src/auth.rs)

The input is a Rust `&str`, modelled as its UTF-8 byte list.  `hex.len()`
is the byte length; `&hex[i*2 .. i*2+2]` is byte-range slicing, which
panics when an endpoint is not a character boundary.  The result wraps
the Rust `Result` in `Option`, with `none` denoting a panic. -/

/-- `str::is_char_boundary`: the end of the string, or an in-range byte
that is not a UTF-8 continuation byte (`b < 0x80 || b >= 0xC0`). -/
def isCharBoundary (s : List Nat) (i : Nat) : Bool :=
  if i = s.length then true
  else
    match s[i]? with
    | some b => decide (b < 0x80) || decide (0xC0 ≤ b)
    | none => false

/-- Rust string slicing `&s[a..b]`: `none` models the panic on an
out-of-range or non-boundary endpoint. -/
def strSlice (s : List Nat) (a b : Nat) : Option (List Nat) :=
  if a ≤ b ∧ isCharBoundary s a ∧ isCharBoundary s b then
    some ((s.take b).drop a)
  else none

def hexVal (c : Nat) : Option Nat :=
  if 48 ≤ c ∧ c ≤ 57 then some (c - 48)
  else if 97 ≤ c ∧ c ≤ 102 then some (c - 87)
  else if 65 ≤ c ∧ c ≤ 70 then some (c - 55)
  else none

def parseHexByte : List Nat → Nat → Option Nat
  | [], acc => some acc
  | c :: t, acc =>
    match hexVal c with
    | some d =>
      if acc * 16 + d ≤ 255 then parseHexByte t (acc * 16 + d) else none
    | none => none

/-- `u8::from_str_radix(s, 16)`: optional leading `+`, then at least one
hex digit, overflow-checked.  (For unsigned types a leading `-` is just
an invalid digit.)  A multi-byte UTF-8 character is never a hex digit:
all of its bytes are ≥ 0x80. -/
def fromStrRadix16U8 (s : List Nat) : Option Nat :=
  match s with
  | 43 :: rest => if rest = [] then none else parseHexByte rest 0
  | [] => none
  | _ => parseHexByte s 0

/-- The `for i in 0..TOKEN_SIZE` loop of `AuthToken::from_hex`, with `k`
iterations remaining.  Outer `none` = panic (a byte slice endpoint is not
a char boundary); the inner `Except` mirrors the Rust `Result`. -/
def fromHexLoop (s : List Nat) : Nat → Nat → List Nat →
    Option (Except CoreErr (List Nat))
  | _, 0, acc => some (.ok acc)
  | i, k + 1, acc =>
    match strSlice s (i * 2) (i * 2 + 2) with
    | none => none
    | some sub =>
      match fromStrRadix16U8 sub with
      | none => some (.error .invalidTokenFormat)
      | some b => fromHexLoop s (i + 1) k (acc ++ [b])

/-- `AuthToken::from_hex`.  `none` = the call panics. -/
def from_hex (s : List Nat) : Option (Except CoreErr AuthToken) :=
  if s.length ≠ 32 * 2 then some (.error .invalidTokenFormat)
  else
    match fromHexLoop s 0 32 [] with
    | none => none
    | some (.error e) => some (.error e)
    | some (.ok bytes) => some (.ok ⟨bytes⟩)

/-! ### Smart-buffered PTY-to-wire pump
(crates/core/src/transport/stream.rs, `pump_pty_to_quic_smart`)

The pump is driven by read completions.  A trace is a list of
`(arrival time in ms, chunk bytes)` pairs with no further data after the
last.  Each `loop` iteration recomputes `flush_timeout` from the current
instant and runs `tokio::select!` between `pty.read` and
`sleep(flush_timeout)` (the sleep branch is guarded by a non-empty
batch).  So between two read completions the timer can fire at most once
(after a timer flush the batch is empty and the sleep branch is
disabled), which lets the loop be folded into one recursion per read
event:  if the batch is non-empty and the next read would complete
strictly after `now + max_flush_delay_ms`, the timer fires first and the
batch is flushed; then the read is processed as in the source (newline
check, accumulate or overflow-flush, then the immediate-flush
conditions).  After the last event the timer (if armed) fires once more.
The result is the list of `(flush time, flushed bytes)` in order. -/

structure BufferConfig where
  maxBatchSize : Nat
  maxFlushDelayMs : Nat
  flushOnNewline : Bool
deriving DecidableEq

def BufferConfig.default : BufferConfig := ⟨16 * 1024, 10, true⟩

def BufferConfig.interactive : BufferConfig := ⟨4 * 1024, 5, true⟩

def BufferConfig.bulk : BufferConfig := ⟨64 * 1024, 50, false⟩

/-- Processing of one completed read (`Case 1` of the `select!`): the
newline test on the chunk, accumulation with the overflow pre-flush, and
the immediate flush conditions.  Returns the flushes emitted at time `t`
(in order) and the batch left behind. -/
def chunkStep (cfg : BufferConfig) (t : Nat) (batch chunk : List Nat) :
    List (Nat × List Nat) × List Nat :=
  let chunkHasNewline := chunk.contains 10
  let preFlush : List (Nat × List Nat) :=
    if batch.length + chunk.length ≤ cfg.maxBatchSize then []
    else if batch.isEmpty then [] else [(t, batch)]
  let batch1 :=
    if batch.length + chunk.length ≤ cfg.maxBatchSize then batch ++ chunk
    else chunk
  let shouldFlush :=
    (cfg.flushOnNewline && chunkHasNewline) ||
      decide (batch1.length ≥ cfg.maxBatchSize)
  if shouldFlush then (preFlush ++ [(t, batch1)], [])
  else (preFlush, batch1)

def smartPumpFlushes (cfg : BufferConfig) :
    Nat → List Nat → List (Nat × List Nat) → List (Nat × List Nat)
  | now, batch, [] =>
    if batch.isEmpty then []
    else [(now + cfg.maxFlushDelayMs, batch)]
  | now, batch, (t, chunk) :: rest =>
    let fired := ¬ batch.isEmpty = true ∧ now + cfg.maxFlushDelayMs < t
    let timerFlush : List (Nat × List Nat) :=
      if fired then [(now + cfg.maxFlushDelayMs, batch)] else []
    let batch0 := if fired then [] else batch
    let step := chunkStep cfg t batch0 chunk
    timerFlush ++ step.1 ++ smartPumpFlushes cfg t step.2 rest

/-! ### Wire-to-PTY pump
(crates/core/src/transport/stream.rs, `pump_quic_to_pty`)

The pump reads a 4-byte big-endian length, checks the 16 MiB cap, reads
that many payload bytes into `data`, and calls `MessageCodec::decode(&data)`
on the bare payload — even though `decode` itself expects a further
length prefix.  The input list is the entire content delivered by the
receive stream before it closes; `read_exact` against a closed stream
errors, so running out of input mid-read is a `Connection` error.
`st` accumulates the PTY writes and the Pong timestamps sent. -/

structure PumpState where
  ptyWrites : List (List Nat)
  pongs : List Nat
deriving DecidableEq

def pump_quic_to_pty (hasSend : Bool) (input : List Nat) (st : PumpState) :
    Except CoreErr PumpState :=
  match input with
  | b0 :: b1 :: b2 :: b3 :: rest =>
    let len := fromBe32 b0 b1 b2 b3
    if len > 16 * 1024 * 1024 then
      .error (.messageTooLarge len (16 * 1024 * 1024))
    else if rest.length < len then
      .error (.connection "Stream closed while reading payload")
    else
      match decode (rest.take len) with
      | .error e => .error e
      | .ok msg =>
        match msg with
        | .command cmd =>
          pump_quic_to_pty hasSend (rest.drop len)
            { st with ptyWrites := st.ptyWrites ++ [cmd.text] }
        | .resize _ _ =>
          pump_quic_to_pty hasSend (rest.drop len) st
        | .ping ts =>
          if hasSend then
            pump_quic_to_pty hasSend (rest.drop len)
              { st with pongs := st.pongs ++ [ts] }
          else
            pump_quic_to_pty hasSend (rest.drop len) st
        | .pong _ =>
          pump_quic_to_pty hasSend (rest.drop len) st
        | .close => .ok st
        | _ =>
          pump_quic_to_pty hasSend (rest.drop len) st
  | _ => .error (.connection "Stream closed by peer")
termination_by input.length
decreasing_by
  all_goals simp [List.length_drop]
  all_goals omega

/-! ### Per-stream connection state machine
(crates/hostagent/src/quic_server.rs, `QuicServer::handle_stream`)

One step of the message loop: the local state is
`(session_id, active_session_id, authenticated, pending_resize)`; the
returned `Bool` is false when the arm `break`s out of the loop.  External
collaborators (token store, session manager, filesystem) are snapshot as
the oracle record `Env`; their side effects are recorded as `Act`
values in arm order.  The `InMsg`/`SessMsg` vocabulary is the match
structure of `handle_stream` (the `SessionMessage` enum itself is absent
from this tree's crates/core/src/types/message.rs, which predates the
multi-session revision of the server; its variants are taken from the
server's match arms and spec §6).  The VFS arm internals (directory
chunking, watcher registration, path validation detail) are collapsed
into single abstract effects — they touch no connection state — with
`vfsOk` deciding the failure paths that `break`. -/

inductive SessMsg where
  | createSession (projectPath sessionId : List Nat)
  | checkSession (sessionId : List Nat)
  | switchSession (sessionId : List Nat)
  | closeSession (sessionId : List Nat)
  | listSessions
deriving DecidableEq

inductive InMsg where
  | hello (protocolVersion : Nat) (authToken : Option AuthToken)
  | input (data : List Nat)
  | command (text : List Nat)
  | ping (timestamp : Nat)
  | resize (rows cols : Nat)
  | close
  | listDir (path : List Nat)
  | watchDir (path : List Nat)
  | unwatchDir (watcherId : List Nat)
  | readFile (path : List Nat)
  | session (sm : SessMsg)
  | other
deriving DecidableEq

inductive OutEvt where
  | helloReply
  | pong (timestamp : Nat)
  | errorEvt
  | sessionCreatedEvt (uuid : List Nat)
  | sessionReAttachEvt (uuid : List Nat)
  | sessionNotFoundEvt (uuid : List Nat)
  | sessionSwitchedEvt (uuid : List Nat)
  | sessionClosedEvt (uuid : List Nat)
  | sessionHistoryMsg (uuid : List Nat) (lines : List (List Nat))
  | outputEvt
  | vfsReply
deriving DecidableEq

inductive Act where
  | send (e : OutEvt)
  | recordAuthFailure
  | resetAuthFailures
  | writeUuid (uuid data : List Nat)
  | writeLegacy (id : Nat) (data : List Nat)
  | spawnLegacySession (pending : Option (Nat × Nat)) (initialData : List Nat)
  | resizeUuid (uuid : List Nat) (rows cols : Nat)
  | resizeLegacy (id : Nat) (rows cols : Nat)
  | vfsListDir (path : List Nat)
  | vfsWatchDir (path : List Nat)
  | vfsUnwatchDir (watcherId : List Nat)
  | vfsReadFile (path : List Nat)
  | createUuidSession (uuid projectPath : List Nat) (pending : Option (Nat × Nat))
  | stopPump (uuid : List Nat)
  | startTaggedPump (uuid : List Nat)
  | closeUuidSession (uuid : List Nat)
deriving DecidableEq

structure ConnState where
  sessionId : Option Nat
  activeSessionId : Option (List Nat)
  authenticated : Bool
  pendingResize : Option (Nat × Nat)
deriving DecidableEq

/-- The state at the top of `handle_stream`. -/
def initialConnState : ConnState := ⟨none, none, false, none⟩

structure Env where
  tokenValid : AuthToken → Bool
  pathExists : List Nat → Bool
  sessionExists : List Nat → Bool
  createUuidOk : List Nat → Bool
  closeUuidOk : List Nat → Bool
  createLegacyOk : Bool
  newLegacyId : Nat
  historyOf : List Nat → List (List Nat)
  outputRxAvailable : List Nat → Bool
  vfsOk : Bool

def PROTOCOL_VERSION : Nat := 1

/-- One iteration of the `handle_stream` message loop on a decoded
message. -/
def handleMessage (env : Env) (st : ConnState) (m : InMsg) :
    ConnState × List Act × Bool :=
  match m with
  | .hello pv tok =>
    let tokenOk :=
      match tok with
      | some t => env.tokenValid t
      | none => false
    if tokenOk = false then
      (st, [.recordAuthFailure, .send .helloReply], false)
    else
      let st1 := { st with authenticated := true }
      if pv ≠ PROTOCOL_VERSION then
        (st1, [.resetAuthFailures, .send .helloReply], false)
      else
        (st1, [.resetAuthFailures, .send .helloReply], true)
  | .input data =>
    if st.authenticated = false then (st, [], false)
    else
      match st.activeSessionId with
      | some uuid => (st, [.writeUuid uuid data], true)
      | none =>
        match st.sessionId with
        | some id => (st, [.writeLegacy id data], true)
        | none =>
          let st1 :=
            if env.createLegacyOk then
              { st with sessionId := some env.newLegacyId }
            else st
          (st1, [.spawnLegacySession st.pendingResize data], true)
  | .command text =>
    if st.authenticated = false then (st, [], false)
    else
      match st.activeSessionId with
      | some uuid => (st, [.writeUuid uuid text], true)
      | none =>
        match st.sessionId with
        | some id => (st, [.writeLegacy id text], true)
        | none =>
          let st1 :=
            if env.createLegacyOk then
              { st with sessionId := some env.newLegacyId }
            else st
          (st1, [.spawnLegacySession st.pendingResize text], true)
  | .ping ts => (st, [.send (.pong ts)], true)
  | .resize rows cols =>
    match st.activeSessionId with
    | some uuid => (st, [.resizeUuid uuid rows cols], true)
    | none =>
      match st.sessionId with
      | some id => (st, [.resizeLegacy id rows cols], true)
      | none => ({ st with pendingResize := some (rows, cols) }, [], true)
  | .close => (st, [], false)
  | .listDir path =>
    if st.authenticated = false then (st, [], false)
    else if env.vfsOk = false then (st, [.send .errorEvt], false)
    else (st, [.vfsListDir path, .send .vfsReply], true)
  | .watchDir path =>
    if st.authenticated = false then (st, [], false)
    else if env.vfsOk = false then (st, [.send .errorEvt], false)
    else (st, [.vfsWatchDir path, .send .vfsReply], true)
  | .unwatchDir watcherId =>
    if st.authenticated = false then (st, [], false)
    else (st, [.vfsUnwatchDir watcherId], true)
  | .readFile path =>
    if st.authenticated = false then (st, [], false)
    else (st, [.vfsReadFile path, .send .vfsReply], true)
  | .session sm =>
    if st.authenticated = false then (st, [], false)
    else
      match sm with
      | .createSession projectPath uuid =>
        if env.pathExists projectPath = false then
          (st, [.send .errorEvt], false)
        else if env.createUuidOk uuid then
          (st, [.createUuidSession uuid projectPath st.pendingResize,
                .send (.sessionCreatedEvt uuid)], true)
        else
          (st, [.createUuidSession uuid projectPath st.pendingResize,
                .send .errorEvt], true)
      | .checkSession uuid =>
        if env.sessionExists uuid then
          (st, [.send (.sessionReAttachEvt uuid)], true)
        else
          (st, [.send (.sessionNotFoundEvt uuid)], true)
      | .switchSession uuid =>
        if env.sessionExists uuid = false then
          (st, [.send (.sessionNotFoundEvt uuid)], false)
        else
          let stopActs : List Act :=
            match st.activeSessionId with
            | some old => [.stopPump old]
            | none => []
          let history := env.historyOf uuid
          let histActs : List Act :=
            if history.isEmpty then []
            else [.send (.sessionHistoryMsg uuid history)]
          let pumpActs : List Act :=
            if env.outputRxAvailable uuid then [.startTaggedPump uuid] else []
          ({ st with activeSessionId := some uuid },
            stopActs ++ histActs ++ pumpActs ++ [.send (.sessionSwitchedEvt uuid)],
            true)
      | .closeSession uuid =>
        if env.closeUuidOk uuid then
          let st1 :=
            if st.activeSessionId = some uuid then
              { st with activeSessionId := none }
            else st
          (st1, [.closeUuidSession uuid, .send (.sessionClosedEvt uuid)], true)
        else
          (st, [.closeUuidSession uuid, .send .errorEvt], true)
      | .listSessions => (st, [.send .outputEvt], true)
  | .other => (st, [], true)

/-! ### Claim theorems -/

/-- C1.  Three successive `record_auth_failure(ip)` with no intervening
reset leave the counter at least at the ban threshold, so the third call
has inserted `ip` into the permanent ban set and `check(ip)` fails with
the banned error whatever the bucket verdict; and from any state in
which `ip` is not banned, `reset_auth_failures(ip)` clears the counter,
so one subsequent `record_auth_failure(ip)` returns Ok, does not ban,
and `check(ip)` still succeeds when the rate quota permits. -/
theorem C1_ban_after_three_failures_reset_clears :
    (∀ (s : RateLimiterStore) (ip : Nat) (quotaOk : Bool),
      check (record_auth_failure (record_auth_failure
          (record_auth_failure s ip).1 ip).1 ip).1 ip quotaOk =
        .error (.ipBanned ip)) ∧
    (∀ (s : RateLimiterStore) (ip : Nat), ip ∉ s.bannedIps →
      (record_auth_failure (reset_auth_failures s ip) ip).2 = .ok () ∧
      ip ∉ (record_auth_failure (reset_auth_failures s ip) ip).1.bannedIps ∧
      check (record_auth_failure (reset_auth_failures s ip) ip).1 ip true =
        .ok ()) := by
  constructor
  · intro s ip quotaOk
    set s1 := (record_auth_failure s ip).1 with hs1
    set s2 := (record_auth_failure s1 ip).1 with hs2
    have hc2 : auth_failure_count s2 ip = auth_failure_count s ip + 2 := by
      rw [hs2, record_failure_counts, hs1, record_failure_counts]
    have hban : ip ∈ (record_auth_failure s2 ip).1.bannedIps := by
      apply record_failure_bans_over_threshold
      unfold auth_failure_count at hc2
      unfold AUTH_FAIL_THRESHOLD
      omega
    unfold check is_banned
    rw [if_pos (by simpa using hban)]
  · intro s ip hnb
    have hcount : (reset_auth_failures s ip).authFailures ip = 0 := by
      simp [reset_auth_failures]
    have hbanned : (reset_auth_failures s ip).bannedIps = s.bannedIps := rfl
    constructor
    · simp only [record_auth_failure]
      rw [if_neg (by rw [hcount]; unfold AUTH_FAIL_THRESHOLD; omega)]
    constructor
    · simp only [record_auth_failure]
      rw [if_neg (by rw [hcount]; unfold AUTH_FAIL_THRESHOLD; omega)]
      simpa [hbanned] using hnb
    · simp only [record_auth_failure]
      rw [if_neg (by rw [hcount]; unfold AUTH_FAIL_THRESHOLD; omega)]
      unfold check is_banned
      rw [if_neg (by simpa [hbanned] using hnb)]
      rfl

/-- Witness for C1 at the empty store and ip 7: three failures ban it;
from the fresh (unbanned) store, reset then one failure stays Ok. -/
theorem C1_ban_witness :
    check (record_auth_failure (record_auth_failure
        (record_auth_failure ⟨fun _ => 0, []⟩ 7).1 7).1 7).1 7 true =
      .error (.ipBanned 7) ∧
    ((7 : Nat) ∉ ([] : List Nat) ∧
      (record_auth_failure (reset_auth_failures ⟨fun _ => 0, []⟩ 7) 7).2 =
        .ok () ∧
      (7 : Nat) ∉ (record_auth_failure
        (reset_auth_failures ⟨fun _ => 0, []⟩ 7) 7).1.bannedIps ∧
      check (record_auth_failure
        (reset_auth_failures ⟨fun _ => 0, []⟩ 7) 7).1 7 true = .ok ()) :=
  ⟨C1_ban_after_three_failures_reset_clears.1 ⟨fun _ => 0, []⟩ 7 true,
    by decide,
    C1_ban_after_three_failures_reset_clears.2 ⟨fun _ => 0, []⟩ 7 (by decide)⟩

/-- C3.  `TokenStore::validate` is true exactly when the token is in the
store and its elapsed age is defined (`created ≤ now`; `SystemTime::
elapsed` errors when the clock went backwards, which validate treats as
expired) and strictly below the 7-day TTL. -/
theorem C3_validate_iff (s : TokenStore) (now : Nat) (tok : AuthToken) :
    validate s now tok = true ↔
      ∃ created, lookupToken s.validTokens tok = some created ∧
        created ≤ now ∧ now - created < DEFAULT_TOKEN_TTL := by
  unfold validate
  cases h : lookupToken s.validTokens tok with
  | none => simp
  | some c =>
    by_cases hc : c ≤ now
    · simp [hc]
    · simp [hc]

/-- C4.  Claim-as-stated is false: `validate` holds only a read lock and
removes nothing.  On a store holding one token created at time 0 queried
at exactly the TTL, `validate` observes it expired and returns false,
yet the token is still present: `token_count` is still 1 and
`cleanup_expired` still finds (and would remove) exactly that entry. -/
theorem C4_validate_does_not_remove :
    validate ⟨[(⟨List.replicate 32 0⟩, 0)]⟩ DEFAULT_TOKEN_TTL
        ⟨List.replicate 32 0⟩ = false ∧
    token_count ⟨[(⟨List.replicate 32 0⟩, 0)]⟩ = 1 ∧
    (cleanup_expired ⟨[(⟨List.replicate 32 0⟩, 0)]⟩ DEFAULT_TOKEN_TTL).2 = 1 := by
  decide

/-- C5.  Any buffer whose 4-byte big-endian header declares a length
over 16 MiB is rejected by `MessageCodec::decode` with `MessageTooLarge`
and yields no message from `try_decode_message`, whatever bytes (and
however many) follow the header. -/
theorem C5_oversize_header_rejected (b0 b1 b2 b3 : Nat) (tail : List Nat)
    (h : fromBe32 b0 b1 b2 b3 > MAX_MESSAGE_SIZE) :
    decode (b0 :: b1 :: b2 :: b3 :: tail) =
      .error (.messageTooLarge (fromBe32 b0 b1 b2 b3) MAX_MESSAGE_SIZE) ∧
    tryDecodeMessage (b0 :: b1 :: b2 :: b3 :: tail) = none := by
  have h' : fromBe32 b0 b1 b2 b3 > 16 * 1024 * 1024 := by
    unfold MAX_MESSAGE_SIZE at h
    omega
  constructor
  · unfold decode
    simp only []
    rw [if_pos h]
  · unfold tryDecodeMessage
    simp only []
    rw [if_pos h']

/-- Witness for C5: header declaring 2^24 + 1 bytes with an empty body. -/
theorem C5_oversize_witness :
    fromBe32 1 0 0 1 > MAX_MESSAGE_SIZE ∧
    decode [1, 0, 0, 1] =
      .error (.messageTooLarge (fromBe32 1 0 0 1) MAX_MESSAGE_SIZE) ∧
    tryDecodeMessage [1, 0, 0, 1] = none :=
  ⟨by decide, C5_oversize_header_rejected 1 0 0 1 [] (by decide)⟩

/-- C2.  For well-formed messages that encode successfully, the
streaming decoder on `encode m1 ++ encode m2` returns exactly
`[m1, m2]`, its cursor ends at `len(e1) + len(e2)`, and appending a
strict prefix of a further frame changes neither the messages nor the
final cursor (the partial suffix is not consumed). -/
theorem C2_decode_stream_two_frames (m1 m2 : NetworkMessage)
    (e1 e2 tailPart : List Nat) (h1 : wfMsg m1) (h2 : wfMsg m2)
    (he1 : encode m1 = .ok e1) (he2 : encode m2 = .ok e2)
    (hpart : tailPart = [] ∨
      ∃ m3 e3 k, encode m3 = .ok e3 ∧ k < e3.length ∧ tailPart = e3.take k) :
    decode_stream (e1 ++ e2 ++ tailPart) = .ok [m1, m2] ∧
    decodeStreamLoop (e1 ++ e2 ++ tailPart) 0 [] =
      .ok ([m1, m2], e1.length + e2.length) := by
  have hbuf : e1 ++ e2 ++ tailPart = e1 ++ (e2 ++ tailPart) := by
    simp [List.append_assoc]
  have hstep1 : decodeStreamLoop (e1 ++ e2 ++ tailPart) 0 [] =
      decodeStreamLoop (e1 ++ e2 ++ tailPart) (0 + e1.length) ([] ++ [m1]) :=
    decodeStreamLoop_frame _ 0 [] m1 e1 (e2 ++ tailPart) h1 he1
      (by rw [hbuf]; simp)
  have hdrop2 : (e1 ++ e2 ++ tailPart).drop e1.length = e2 ++ tailPart := by
    rw [hbuf]
    exact List.drop_left e1 (e2 ++ tailPart)
  have hstep2 : decodeStreamLoop (e1 ++ e2 ++ tailPart) e1.length [m1] =
      decodeStreamLoop (e1 ++ e2 ++ tailPart) (e1.length + e2.length)
        ([m1] ++ [m2]) :=
    decodeStreamLoop_frame _ e1.length [m1] m2 e2 tailPart h2 he2 hdrop2
  have hdrop3 : (e1 ++ e2 ++ tailPart).drop (e1.length + e2.length) =
      tailPart := by
    have hl : (e1 ++ e2).length = e1.length + e2.length := by simp
    rw [← hl]
    exact List.drop_left (e1 ++ e2) tailPart
  have hfinal : decodeStreamLoop (e1 ++ e2 ++ tailPart)
      (e1.length + e2.length) [m1, m2] =
      .ok ([m1, m2], e1.length + e2.length) := by
    rcases hpart with hnil | ⟨m3, e3, k, he3, hk, htp⟩
    · apply decodeStreamLoop_end
      subst hnil
      simp
    · exact decodeStreamLoop_partial _ _ _ m3 e3 k he3 hk
        (by rw [hdrop3, htp])
  have hloop : decodeStreamLoop (e1 ++ e2 ++ tailPart) 0 [] =
      .ok ([m1, m2], e1.length + e2.length) := by
    rw [hstep1]
    simp only [Nat.zero_add, List.nil_append]
    rw [hstep2]
    simpa using hfinal
  refine ⟨?_, hloop⟩
  unfold decode_stream
  rw [hloop]
  rfl

/-- Witness for C2 at `Close` and `Ping 42`, with the two-byte strict
prefix `[0, 0]` of a further `Close` frame appended. -/
theorem C2_decode_stream_witness :
    wfMsg .close ∧ wfMsg (.ping 42) ∧
    encode .close = .ok [0, 0, 0, 1, 11] ∧
    encode (.ping 42) = .ok [0, 0, 0, 2, 4, 42] ∧
    (([0, 0] : List Nat) = [] ∨
      ∃ m3 e3 k, encode m3 = .ok e3 ∧ k < e3.length ∧
        ([0, 0] : List Nat) = e3.take k) ∧
    (decode_stream ([0, 0, 0, 1, 11] ++ [0, 0, 0, 2, 4, 42] ++ [0, 0]) =
        .ok [.close, .ping 42] ∧
      decodeStreamLoop ([0, 0, 0, 1, 11] ++ [0, 0, 0, 2, 4, 42] ++ [0, 0])
          0 [] =
        .ok ([.close, .ping 42],
          [0, 0, 0, 1, 11].length + [0, 0, 0, 2, 4, 42].length)) := by
  have hser1 : serNetworkMessage .close = [11] := by
    rw [show serNetworkMessage .close = serVarint 11 from rfl,
      serVarint_small 11 (by norm_num)]
  have hser2 : serNetworkMessage (.ping 42) = [4, 42] := by
    rw [show serNetworkMessage (.ping 42) = serVarint 4 ++ serVarint 42
        from rfl,
      serVarint_small 4 (by norm_num), serVarint_small 42 (by norm_num)]
    rfl
  have he1 : encode .close = .ok [0, 0, 0, 1, 11] := by
    unfold encode
    rw [hser1]
    norm_num [toBe32, MAX_MESSAGE_SIZE]
  have he2 : encode (.ping 42) = .ok [0, 0, 0, 2, 4, 42] := by
    unfold encode
    rw [hser2]
    norm_num [toBe32, MAX_MESSAGE_SIZE]
  have hw1 : wfMsg .close := trivial
  have hw2 : wfMsg (.ping 42) := by norm_num [wfMsg]
  have hpart : (([0, 0] : List Nat) = [] ∨
      ∃ m3 e3 k, encode m3 = .ok e3 ∧ k < e3.length ∧
        ([0, 0] : List Nat) = e3.take k) :=
    Or.inr ⟨.close, [0, 0, 0, 1, 11], 2, he1, by norm_num, by decide⟩
  exact ⟨hw1, hw2, he1, he2, hpart,
    C2_decode_stream_two_frames .close (.ping 42) _ _ _ hw1 hw2 he1 he2 hpart⟩

/-- An arbitrary environment for evaluating the connection state
machine at concrete inputs (every oracle answers negatively). -/
def env0 : Env :=
  ⟨fun _ => false, fun _ => false, fun _ => false, fun _ => false,
    fun _ => false, false, 0, fun _ => [], fun _ => false, false⟩

/-- C6.  Claim-as-stated is false: the `Resize` arm of `handle_stream`
is the one session-affecting arm with no `authenticated` check.  On the
initial (unauthenticated) state a `Resize{50,150}` is recorded as
`pending_resize = Some((50,150))` and the loop continues — it is later
fed into the config of the session spawned after authentication — while
pre-auth `Input`, `Command` and `Session` messages do leave the state
unchanged and break, as the claim says. -/
theorem C6_preauth_resize_recorded :
    handleMessage env0 initialConnState (.resize 50 150) =
      ({ initialConnState with pendingResize := some (50, 150) }, [], true) ∧
    ({ initialConnState with pendingResize := some (50, 150) } : ConnState) ≠
      initialConnState ∧
    handleMessage env0 initialConnState (.input [108]) =
      (initialConnState, [], false) ∧
    handleMessage env0 initialConnState (.command [108]) =
      (initialConnState, [], false) ∧
    handleMessage env0 initialConnState (.session (.switchSession [97])) =
      (initialConnState, [], false) := by
  decide

/-- C7 (counterexample to the claim as stated).  With the default config
(`max_flush_delay_ms = 10`, `flush_on_newline = true`), newline-free
1-byte chunks arriving at t = 0, 9, 18 ms keep re-arming the flush
timeout (each iteration recomputes it from the current instant), so the
single flush happens at t = 28 ms — 28 ms after the first byte of the
batch entered, though the claim promises at most 10 ms. -/
theorem C7_first_byte_deadline_counterexample :
    smartPumpFlushes BufferConfig.default 0 []
        [(0, [97]), (9, [97]), (18, [97])] =
      [(28, [97, 97, 97])] ∧
    0 + BufferConfig.default.maxFlushDelayMs < 28 := by
  decide

theorem chunkStep_times (cfg : BufferConfig) (t : Nat)
    (batch chunk : List Nat) :
    ∀ x ∈ (chunkStep cfg t batch chunk).1, x.1 = t := by
  intro x hx
  unfold chunkStep at hx
  simp only [] at hx
  split at hx <;> simp at hx <;> aesop

theorem chunkStep_newline_flushes (cfg : BufferConfig) (t : Nat)
    (batch chunk : List Nat) (hn : cfg.flushOnNewline = true)
    (hc : chunk.contains 10 = true) :
    ∃ d, (t, d) ∈ (chunkStep cfg t batch chunk).1 := by
  simp only [chunkStep, hn, hc]
  simp

/-- The arrival times of a read trace are nondecreasing from the start
instant — read completions are delivered in order. -/
def timesMono : Nat → List (Nat × List Nat) → Bool
  | _, [] => true
  | t0, (t, _) :: rest => decide (t0 ≤ t) && timesMono t rest

theorem timesMono_le (a : Nat) (l : List (Nat × List Nat))
    (h : timesMono a l = true) :
    ∀ t' c', (t', c') ∈ l → a ≤ t' := by
  induction l generalizing a with
  | nil =>
    intro t' c' hm
    simp at hm
  | cons ev rest ih =>
    obtain ⟨t, c⟩ := ev
    simp only [timesMono, Bool.and_eq_true, decide_eq_true_eq] at h
    intro t' c' hm
    rcases List.mem_cons.mp hm with heq | htail
    · injection heq with h1 _
      omega
    · have := ih t h.2 t' c' htail
      omega

/-- C7 (amended).  In the smart pump, on any trace of in-order read
completions, every flush happens either at a chunk arrival instant
(newline / size / overflow flush), or exactly `max_flush_delay_ms`
after the start instant before any chunk has arrived (a pre-existing
batch), or exactly `max_flush_delay_ms` after the most recent chunk
arrival — the witness arrival `t` has no other arrival in `(t, tf]` —
because the timer re-arms on every read rather than on the batch's
first byte; and with `flush_on_newline = true` a chunk containing a
newline byte still forces a flush at its own arrival instant. -/
theorem C7_flush_timing_amended (cfg : BufferConfig) :
    (∀ (now : Nat) (batch : List Nat) (events : List (Nat × List Nat)),
      timesMono now events = true →
      ∀ (tf : Nat) (d : List Nat),
        (tf, d) ∈ smartPumpFlushes cfg now batch events →
          (∃ t c, (t, c) ∈ events ∧ tf = t) ∨
          (tf = now + cfg.maxFlushDelayMs ∧
            ∀ t' c', (t', c') ∈ events → tf < t') ∨
          (∃ t c, (t, c) ∈ events ∧ tf = t + cfg.maxFlushDelayMs ∧
            ∀ t' c', (t', c') ∈ events → t' ≤ tf → t' ≤ t)) ∧
    (∀ (now t : Nat) (batch chunk : List Nat)
      (rest : List (Nat × List Nat)),
      cfg.flushOnNewline = true → chunk.contains 10 = true →
        ∃ d, (t, d) ∈ smartPumpFlushes cfg now batch ((t, chunk) :: rest)) := by
  constructor
  · intro now batch events
    induction events generalizing now batch with
    | nil =>
      intro _ tf d hmem
      simp only [smartPumpFlushes] at hmem
      split at hmem
      · simp at hmem
      · simp at hmem
        refine Or.inr (Or.inl ⟨hmem.1, ?_⟩)
        intro t' c' hm'
        simp at hm'
    | cons ev rest ih =>
      obtain ⟨t, chunk⟩ := ev
      intro hmono tf d hmem
      simp only [timesMono, Bool.and_eq_true, decide_eq_true_eq] at hmono
      obtain ⟨hnt, hmono'⟩ := hmono
      have hrest_le : ∀ t' c', (t', c') ∈ rest → t ≤ t' :=
        timesMono_le t rest hmono'
      simp only [smartPumpFlushes, List.mem_append] at hmem
      rcases hmem with (hmem | hmem) | hmem
      · split at hmem
        case isTrue hcond =>
          simp at hmem
          refine Or.inr (Or.inl ⟨hmem.1, ?_⟩)
          intro t' c' hm'
          rcases List.mem_cons.mp hm' with heq | htail
          · injection heq with h1 _
            omega
          · have := hrest_le t' c' htail
            omega
        case isFalse =>
          simp at hmem
      · have := chunkStep_times cfg t
          (if (¬ batch.isEmpty = true ∧ now + cfg.maxFlushDelayMs < t)
            then [] else batch) chunk (tf, d) hmem
        exact Or.inl ⟨t, chunk, by simp, this⟩
      · rcases ih t _ hmono' tf d hmem with
          ⟨t2, c2, hm2, h2⟩ | ⟨heq, hall⟩ | ⟨t2, c2, hm2, heq, hball⟩
        · exact Or.inl ⟨t2, c2, by simp [hm2], h2⟩
        · refine Or.inr (Or.inr ⟨t, chunk, by simp, heq, ?_⟩)
          intro t' c' hm' hle
          rcases List.mem_cons.mp hm' with heq' | htail
          · injection heq' with h1 _
            omega
          · have := hall t' c' htail
            omega
        · refine Or.inr (Or.inr ⟨t2, c2, by simp [hm2], heq, ?_⟩)
          intro t' c' hm' hle
          rcases List.mem_cons.mp hm' with heq' | htail
          · have := hrest_le t2 c2 hm2
            injection heq' with h1 _
            omega
          · exact hball t' c' htail hle
  · intro now t batch chunk rest hn hc
    obtain ⟨d, hd⟩ := chunkStep_newline_flushes cfg t
      (if (¬ batch.isEmpty = true ∧ now + cfg.maxFlushDelayMs < t)
        then [] else batch) chunk hn hc
    refine ⟨d, ?_⟩
    simp only [smartPumpFlushes, List.mem_append]
    exact Or.inl (Or.inr hd)

/-- Witness for the amended C7: a single newline-free chunk at t = 5 is
timer-flushed at t = 15, exactly the delay after its (most recent)
arrival; and a newline chunk at t = 5 is flushed at t = 5. -/
theorem C7_flush_timing_witness :
    timesMono 0 [(5, [97])] = true ∧
    ((15, [97]) ∈ smartPumpFlushes BufferConfig.default 0 [] [(5, [97])]) ∧
    ((∃ t c, (t, c) ∈ [(5, [97])] ∧ 15 = t) ∨
      (15 = 0 + BufferConfig.default.maxFlushDelayMs ∧
        ∀ t' c', (t', c') ∈ [(5, [97])] → 15 < t') ∨
      (∃ t c, (t, c) ∈ [(5, [97])] ∧
        15 = t + BufferConfig.default.maxFlushDelayMs ∧
        ∀ t' c', (t', c') ∈ [(5, [97])] → t' ≤ 15 → t' ≤ t)) ∧
    (∃ d, (5, d) ∈ smartPumpFlushes BufferConfig.default 0 [] [(5, [10])]) :=
  ⟨by decide, by decide,
    (C7_flush_timing_amended BufferConfig.default).1 0 [] [(5, [97])]
      (by decide) 15 [97] (by decide),
    (C7_flush_timing_amended BufferConfig.default).2 0 5 [] [10] [] rfl
      (by decide)⟩

/-- C8.  Claim-as-stated is false: `pump_quic_to_pty` strips the 4-byte
length itself and then hands the bare payload to `MessageCodec::decode`,
which expects another length prefix; so even the valid `Close` frame
(`encode Close = [0,0,0,1,11]`) makes `decode([11])` fail and the pump
return an error instead of dispatching (Close should terminate it
cleanly with Ok).  Input and Resize frames, had they decoded, would not
reach the PTY either: Input falls into the ignore arm and Resize is an
explicit TODO. -/
theorem C8_pump_misframes_every_frame :
    encode .close = .ok [0, 0, 0, 1, 11] ∧
    pump_quic_to_pty true [0, 0, 0, 1, 11] ⟨[], []⟩ =
      .error (.invalidMessageFormat "Buffer too small for length prefix") := by
  constructor
  · unfold encode
    rw [show serNetworkMessage .close = serVarint 11 from rfl,
      serVarint_small 11 (by norm_num)]
    norm_num [toBe32, MAX_MESSAGE_SIZE]
  · rw [pump_quic_to_pty]
    norm_num [fromBe32, decode]

/-- C9.  Claim-as-stated is false: `AuthToken::from_hex` byte-slices
`&hex[2i..2i+2]`, so a 64-byte string containing a multi-byte character
that straddles an even byte offset (here `"a¡aaa…"`, whose `¡` occupies
bytes 1–2) panics on a non-char-boundary slice instead of returning
`InvalidTokenFormat`; an all-ASCII invalid string (64 × `g`) does take
the documented error path. -/
theorem C9_from_hex_panics_on_multibyte :
    validUtf8 (97 :: 194 :: 161 :: List.replicate 61 97) = true ∧
    (97 :: 194 :: 161 :: List.replicate 61 97).length = 64 ∧
    from_hex (97 :: 194 :: 161 :: List.replicate 61 97) = none ∧
    from_hex (List.replicate 64 103) = some (.error .invalidTokenFormat) := by
  decide

/-- C10.  A complete frame (declared length within the 16 MiB cap, full
payload present) whose payload fails postcard deserialization is
consumed by `try_decode_message` and replaced by `Close`, with exactly
the frame's bytes removed from the buffer; and the `Close` arm of the
stream handler exits the message loop leaving connection state
untouched, as a peer-initiated graceful close would. -/
theorem C10_undecodable_frame_becomes_close (len : Nat)
    (payload rest : List Nat) (hlen : payload.length = len)
    (hcap : len ≤ 16 * 1024 * 1024) (hbad : fromBytes payload = none) :
    tryDecodeMessage (toBe32 len ++ payload ++ rest) =
      some (.close, rest) ∧
    ∀ (env : Env) (st : ConnState),
      handleMessage env st .close = (st, [], false) := by
  constructor
  · have hl32 : len < 2 ^ 32 := by omega
    unfold tryDecodeMessage
    simp only [toBe32, List.cons_append, List.nil_append, List.append_assoc]
    rw [fromBe32_toBe32 len hl32]
    rw [if_neg (by omega)]
    rw [if_neg (by simp [hlen])]
    rw [List.take_left' hlen]
    unfold decode
    simp only []
    rw [fromBe32_toBe32 len hl32]
    rw [if_neg (by unfold MAX_MESSAGE_SIZE; omega)]
    rw [if_neg (by omega)]
    rw [show payload.take len = payload from by rw [← hlen]; exact List.take_length payload]
    rw [hbad]
    simp only []
    rw [List.drop_left' hlen]
  · intro env st
    rfl

/-- Witness for C10: the one-byte payload `[21]` (variant tag 21, out of
range for the 21-variant message enum) inside a well-formed frame. -/
theorem C10_undecodable_witness :
    ([21] : List Nat).length = 1 ∧
    (1 : Nat) ≤ 16 * 1024 * 1024 ∧
    fromBytes [21] = none ∧
    (tryDecodeMessage (toBe32 1 ++ [21] ++ [9, 9]) =
        some (.close, [9, 9]) ∧
      ∀ (env : Env) (st : ConnState),
        handleMessage env st .close = (st, [], false)) :=
  ⟨by decide, by decide, by decide,
    C10_undecodable_frame_becomes_close 1 [21] [9, 9] (by decide) (by decide)
      (by decide)⟩

end Comacode
